import Mathlib

/-!
# Pom-Timer: a shallow embedding of `pom_timer.c` / `pom_timer.h`

The C program keeps two global records, `config` and `timer`, and runs an
endless loop that alternates a work phase and a break phase.  Below, the
globals become explicit arguments and results.

Conventions of the embedding

* A C `int` is an `Int`.  Signed overflow is undefined behaviour in C, so the
  embedding describes the executions in which no `int` arithmetic overflows.
  The result of `atoi` is brought into the range of `int` explicitly.
* A C string is a `String`; its bytes are those of its UTF-8 encoding.
* Text written to `stderr` is kept as a list of abstract messages, one
  constructor per `fprintf` call site that matters for the control flow.
* `exit` is modelled by the `exited` outcome, a normal return by `returned`.
* `sleep` and the cosmetic terminal output of the main loop have no effect on
  the state and are left out; `malloc` is taken to succeed.
-/

namespace PomTimer

/-! ## Data model (`pom_timer.h`) -/

/-- The record `struct ptimer`. -/
structure ptimer where
  secs : Int
  mins : Int
  num_work : Int
  num_break : Int
  deriving DecidableEq, Repr

/-- What a `char *` into a buffer filled by `strncpy` points to: a C string
(bytes up to a terminator), or bytes that fill the buffer to its end and have
no terminator, so that reading them as a string is undefined. -/
inductive buffer where
  | string (s : String)
  | unterminated
  deriving DecidableEq, Repr

instance : Coe String buffer := ⟨buffer.string⟩

/-- The record `struct configs`; a `NULL` `save_path` is `none`. -/
structure configs where
  work_time : Int
  break_time : Int
  save_path : Option buffer
  deriving DecidableEq, Repr

def WORK_TIME_DEFAULT : Int := 25
def BREAK_TIME_DEFAULT : Int := 5
def MODE_FAIL : Int := 0
def MODE_CONTINUE : Int := 1

/-- Initial value of the global `config`. -/
def config_init : configs :=
  { work_time := WORK_TIME_DEFAULT, break_time := BREAK_TIME_DEFAULT, save_path := none }

/-- Initial value of the global `timer`. -/
def timer_init : ptimer :=
  { secs := 0, mins := 0, num_work := 0, num_break := 0 }

/-! ## The clock (`inc`, `is_work`, `is_break`) -/

/-- The function `inc`: one tick of the clock. -/
def inc (t : ptimer) : ptimer :=
  if t.secs = 59 then
    { t with mins := t.mins + 1, secs := 0 }
  else
    { t with secs := t.secs + 1 }

/-- The function `is_work`. -/
def is_work (config : configs) (t : ptimer) : Bool :=
  if t.mins = config.work_time then false else true

/-- The function `is_break`. -/
def is_break (config : configs) (t : ptimer) : Bool :=
  if t.mins = config.break_time then false else true

/-! ## `take_break` -/

/-- First statement line of `take_break`: `t->secs = 0; t->mins = 0; t->num_work++`. -/
def take_break_enter (t : ptimer) : ptimer :=
  { t with secs := 0, mins := 0, num_work := t.num_work + 1 }

/-- Last statement line of `take_break`: `t->secs = 0; t->mins = 0; t->num_break++`. -/
def take_break_leave (t : ptimer) : ptimer :=
  { t with secs := 0, mins := 0, num_break := t.num_break + 1 }

/-- The loop `while (is_break(t)) { ...; sleep(1); inc(t); }` of `take_break`.
`fuel` bounds the number of evaluations of the loop condition; the second
component of the result counts the calls of `inc`. -/
def take_break_loop (config : configs) : Nat → ptimer → Nat → Option (ptimer × Nat)
  | 0, _, _ => none
  | fuel + 1, t, n =>
    if is_break config t then take_break_loop config fuel (inc t) (n + 1)
    else some (t, n)

/-- The function `take_break`; the result is the timer on return together with
the number of break ticks (calls of `inc`) performed. -/
def take_break (config : configs) (fuel : Nat) (t : ptimer) : Option (ptimer × Nat) :=
  match take_break_loop config fuel (take_break_enter t) 0 with
  | none => none
  | some (t', n) => some (take_break_leave t', n)

/-! ## The main loop as a transition system -/

/-- Control points of the running timer: the head of `while (true)` in `main`,
and the head of the `while (is_break(t))` loop inside `take_break`. -/
inductive Loc where
  | main_loop
  | break_loop
  deriving DecidableEq, Repr

/-- What one transition does. -/
inductive Event where
  /-- Work tick: `is_work` held, so `print_and_sleep`, then `inc`. -/
  | work_tick
  /-- Break entry: `is_work` failed, `take_break` is called and runs its first line. -/
  | enter_break
  /-- Break tick: `is_break` held, so `sleep(1)`, then `inc`. -/
  | break_tick
  /-- Break exit: `is_break` failed, `take_break` runs its last line and returns. -/
  | leave_break
  deriving DecidableEq, Repr

/-- State of the running program: control point and the global `timer`. -/
structure MState where
  loc : Loc
  timer : ptimer
  deriving DecidableEq, Repr

/-- One transition of the main loop of `main` (with `take_break` inlined). -/
def main_step (config : configs) (s : MState) : Event × MState :=
  match s.loc with
  | Loc.main_loop =>
    if is_work config s.timer then
      (Event.work_tick, { loc := Loc.main_loop, timer := inc s.timer })
    else
      (Event.enter_break, { loc := Loc.break_loop, timer := take_break_enter s.timer })
  | Loc.break_loop =>
    if is_break config s.timer then
      (Event.break_tick, { loc := Loc.break_loop, timer := inc s.timer })
    else
      (Event.leave_break, { loc := Loc.main_loop, timer := take_break_leave s.timer })

/-- The first `n` transitions from `s`: the events in order and the state reached. -/
def main_run (config : configs) : Nat → MState → List Event × MState
  | 0, s => ([], s)
  | n + 1, s =>
    let r := main_step config s
    let r' := main_run config n r.2
    (r.1 :: r'.1, r'.2)

/-- State in which `main` enters its loop. -/
def main_init : MState := { loc := Loc.main_loop, timer := timer_init }

/-- Events of one full Work->Break cycle with `W` work minutes and `B` break
minutes: the work ticks, the call of `take_break`, the break ticks, its return. -/
def cycle_events (W B : Nat) : List Event :=
  List.replicate (W * 60) Event.work_tick ++ [Event.enter_break] ++
  List.replicate (B * 60) Event.break_tick ++ [Event.leave_break]

/-- Events of `N` full cycles in a row. -/
def cycles_events (W B : Nat) : Nat → List Event
  | 0 => []
  | N + 1 => cycle_events W B ++ cycles_events W B N

/-! ## Command line (`consume_args`, `get_option`, `bad_option`) -/

/-- Messages written to `stderr` (and the farewell of the signal handler). -/
inductive Msg where
  /-- Usage text `help_msg`. -/
  | help_msg
  /-- Text `warning: Need value after <opt_name>.` -/
  | need_value (opt_name : String)
  /-- Text `error: Provided bad value <val> to <option> (must be int > 0).` -/
  | bad_value (val : Int) (option : String)
  /-- Text `warning: Provided bad option <option>.` -/
  | bad_option (option : String)
  /-- Text `Done.` -/
  | done
  deriving DecidableEq, Repr

/-- How a call ends: it returns a value, or the process is ended by `exit`.
Both carry the contents of `stderr` at that moment. -/
inductive Outcome (α : Type) where
  | returned (val : α) (err : List Msg)
  | exited (status : Int) (err : List Msg)
  deriving DecidableEq, Repr

/-- Exit status of an outcome, if the process was ended. -/
def Outcome.status {α : Type} : Outcome α → Option Int
  | Outcome.returned _ _ => none
  | Outcome.exited c _ => some c

/-- Returned value of an outcome, if the call returned. -/
def Outcome.value {α : Type} : Outcome α → Option α
  | Outcome.returned v _ => some v
  | Outcome.exited _ _ => none

/-- The same outcome with the messages `pre` on `stderr` before its own. -/
def Outcome.after {α : Type} (pre : List Msg) : Outcome α → Outcome α
  | Outcome.returned v e => Outcome.returned v (pre ++ e)
  | Outcome.exited c e => Outcome.exited c (pre ++ e)

/-- The C library predicate `isspace` in the "C" locale. -/
def isspace (c : Char) : Bool :=
  c = ' ' || c = Char.ofNat 9 || c = Char.ofNat 10 || c = Char.ofNat 11 ||
  c = Char.ofNat 12 || c = Char.ofNat 13

/-- The C library predicate `isdigit`. -/
def isdigit (c : Char) : Bool :=
  decide (48 ≤ c.toNat) && decide (c.toNat ≤ 57)

/-- Value of the longest run of decimal digits at the front of `cs`,
continuing the value `acc` of the digits already read. -/
def atoi_digits : Nat → List Char → Nat
  | acc, [] => acc
  | acc, c :: cs => if isdigit c then atoi_digits (acc * 10 + (c.toNat - 48)) cs else acc

/-- Largest value of the C type `long` (64 bits). -/
def LONG_MAX : Int := 9223372036854775807

/-- Smallest value of the C type `long` (64 bits). -/
def LONG_MIN : Int := -9223372036854775808

/-- Largest value of the C type `int` (32 bits). -/
def INT_MAX : Int := 2147483647

/-- The C library function `strtol(nptr, NULL, 10)`: leading white space is
skipped, one optional sign is read, then the longest run of decimal digits;
without digits the value is 0.  A value outside the range of `long` is
replaced by `LONG_MAX` or `LONG_MIN`. -/
def strtol (nptr : String) : Int :=
  let value : Int :=
    match nptr.data.dropWhile isspace with
    | '-' :: cs => - (atoi_digits 0 cs : Int)
    | '+' :: cs => (atoi_digits 0 cs : Int)
    | cs => (atoi_digits 0 cs : Int)
  if value > LONG_MAX then LONG_MAX
  else if value < LONG_MIN then LONG_MIN
  else value

/-- Conversion of a `long` to `int`: the value modulo 2^32 that lies in the
range of `int`. -/
def to_int (x : Int) : Int :=
  (x + 2147483648) % 4294967296 - 2147483648

/-- The C library function `atoi`, which is `(int) strtol(nptr, NULL, 10)`:
the result is an `int`, also for digits that spell a number outside the range
of `int`. -/
def atoi (nptr : String) : Int :=
  to_int (strtol nptr)

/-- The C library function `strlen`: the number of bytes of a string before
its terminator, which is the size of its UTF-8 encoding. -/
def strlen (s : String) : Nat :=
  s.utf8ByteSize

/-- The C library function `strncpy(dest, src, n)` into a fresh buffer of `n`
bytes: a string of fewer than `n` bytes is copied with its terminator; of a
longer one the first `n` bytes are copied and no terminator is written. -/
def strncpy (src : String) (n : Nat) : buffer :=
  if strlen src < n then buffer.string src else buffer.unterminated

/-- The function `bad_option`. -/
def bad_option (val : Int) (option : String) (mode : Int) (err : List Msg) : Outcome Unit :=
  if mode = MODE_FAIL then
    Outcome.exited 1 (err ++ [Msg.bad_value val option])
  else if mode = MODE_CONTINUE then
    Outcome.returned () (err ++ [Msg.bad_option option])
  else
    Outcome.returned () err

/-- The function `get_option`.  `argv` is the argument vector from the element
`*argv` points to onwards, so that `*argc` is `argv.length`; the result holds
the new `config` and the new `argv`.  `BUFSIZ` is the constant of `<stdio.h>`. -/
def get_option (BUFSIZ : Nat) (config : configs) (argv : List String) (opt_name : String)
    (err : List Msg) : Outcome (configs × List String) :=
  if argv.length > 1 then
    let argv := argv.tail
    let arg := argv.headD ""
    let parsed : Outcome Int :=
      if opt_name = "--work" ∨ opt_name = "--break" then
        let ntime := atoi arg
        if ntime < 1 then
          match bad_option ntime opt_name MODE_FAIL err with
          | Outcome.exited c e => Outcome.exited c e
          | Outcome.returned _ e => Outcome.returned ntime e
        else Outcome.returned ntime err
      else Outcome.returned 0 err
    match parsed with
    | Outcome.exited c e => Outcome.exited c e
    | Outcome.returned ntime err =>
      let config :=
        if opt_name = "--log-file" then { config with save_path := some (strncpy arg BUFSIZ) }
        else config
      let config := if opt_name = "--work" then { config with work_time := ntime } else config
      let config := if opt_name = "--break" then { config with break_time := ntime } else config
      Outcome.returned (config, argv) err
  else
    Outcome.returned (config, argv) (err ++ [Msg.need_value opt_name])

/-- One pass through the body of the loop of `consume_args`; `argv` is the
argument vector from `*argv` onwards.  The result holds the new `config` and
the new `argv`. -/
def consume_body (BUFSIZ : Nat) (config : configs) (argv : List String) (err : List Msg) :
    Outcome (configs × List String) :=
  let arg := argv.headD ""
  if arg = "--help" ∨ arg = "-h" then
    Outcome.exited 0 (err ++ [Msg.help_msg])
  else if arg = "--work" ∨ arg = "-w" then
    get_option BUFSIZ config argv "--work" err
  else if arg = "--break" ∨ arg = "-b" then
    get_option BUFSIZ config argv "--break" err
  else if arg = "--log-file" ∨ arg = "-f" then
    get_option BUFSIZ config argv "--log-file" err
  else
    match bad_option 0 arg MODE_CONTINUE err with
    | Outcome.exited c e => Outcome.exited c e
    | Outcome.returned _ e => Outcome.returned (config, argv) e

/-- The function `consume_args`: the loop `while (--argc > 0 && ++argv)`.
`argv` is the argument vector from the element `argv` points to onwards
(on entry the whole vector, program name first) and `argc` is its length. -/
def consume_args (BUFSIZ : Nat) (config : configs) (argv : List String) (err : List Msg) :
    Outcome configs :=
  match argv with
  | [] => Outcome.returned config err
  | [_] => Outcome.returned config err
  | _ :: a :: rest =>
    match h : consume_body BUFSIZ config (a :: rest) err with
    | Outcome.exited c e => Outcome.exited c e
    | Outcome.returned (config', argv') e => consume_args BUFSIZ config' argv' e
termination_by argv.length
decreasing_by
  have hlen : argv'.length ≤ (a :: rest).length := by
    have hget : ∀ opt_name, get_option BUFSIZ config (a :: rest) opt_name err
        = Outcome.returned (config', argv') e → argv'.length ≤ (a :: rest).length := by
      intro opt_name hg
      unfold get_option at hg
      split at hg
      · simp only at hg
        split at hg
        · cases hg
        · cases hg
          simp
      · cases hg
        exact le_refl _
    unfold consume_body at h
    simp only at h
    split at h
    · cases h
    split at h
    · exact hget _ h
    split at h
    · exact hget _ h
    split at h
    · exact hget _ h
    · unfold bad_option at h
      simp [ MODE_CONTINUE, MODE_FAIL] at h
      rw [h.1.2]
  simp only [List.length_cons] at hlen ⊢
  omega

/-- The first `k` iterations of the loop of `consume_args` (fewer when the loop
ends earlier): the `config` and `argv` reached, or the exit taken. -/
def consume_steps (BUFSIZ : Nat) : Nat → configs → List String → List Msg →
    Outcome (configs × List String)
  | 0, config, argv, err => Outcome.returned (config, argv) err
  | _ + 1, config, [], err => Outcome.returned (config, []) err
  | _ + 1, config, [x], err => Outcome.returned (config, [x]) err
  | k + 1, config, _ :: a :: rest, err =>
    match consume_body BUFSIZ config (a :: rest) err with
    | Outcome.exited c e => Outcome.exited c e
    | Outcome.returned (config', argv') e => consume_steps BUFSIZ k config' argv' e

/-- Whether `a` is one of the options after which `consume_args` calls
`get_option`, that is, an option that takes a value. -/
def takes_value (a : String) : Bool :=
  a = "--work" || a = "-w" || a = "--break" || a = "-b" || a = "--log-file" || a = "-f"

/-- Whether the argument that follows the arguments `pre` (those after the
program name) stands where the loop of `consume_args` looks for an option:
the loop passes over one argument at a time, but over an option that takes a
value together with the argument after it. -/
def option_position : List String → Bool
  | [] => true
  | [a] => !takes_value a
  | a :: v :: rest => if takes_value a then option_position rest else option_position (v :: rest)

/-! ## Statistics and shutdown (`save_stats`, `sigint_handler`) -/

/-- The fields of the C library record `struct tm` that `save_stats` reads. -/
structure tm where
  tm_year : Int
  tm_mon : Int
  tm_mday : Int
  tm_hour : Int
  tm_min : Int
  deriving DecidableEq, Repr

/-- The eight integer arguments of the `fprintf` call of `save_stats`, in
order: five for the date and time, three for the duration. -/
structure log_line where
  year : Int
  mon : Int
  mday : Int
  hour : Int
  min : Int
  hrs : Int
  mins : Int
  secs : Int
  deriving DecidableEq, Repr

/-- The files the program can see, by path: `none` when `fopen(path, "a")`
fails, otherwise the lines logged so far (none yet for a file that `fopen`
would create). -/
abbrev files := String → Option (List log_line)

/-- The local variable `elapsed` of `save_stats`. -/
def elapsed (config : configs) (timer : ptimer) : Int :=
  (timer.num_work * config.work_time * 60) +
  (timer.num_break * config.break_time * 60) +
  (timer.mins * 60 + timer.secs)

/-- The line `save_stats` prints; `/` of C truncates towards zero. -/
def log_entry (now : tm) (config : configs) (timer : ptimer) : log_line :=
  let elapsed := elapsed config timer
  { year := now.tm_year + 1900, mon := now.tm_mon + 1, mday := now.tm_mday,
    hour := now.tm_hour, min := now.tm_min,
    hrs := Int.tdiv elapsed 3600, mins := Int.tdiv elapsed 60, secs := elapsed }

/-- The function `save_stats`; `now` is the result of `localtime`.  The result
of `fopen` is not tested before it is passed to `fprintf`: with a null `file`
the call has no defined behaviour, which is the result `none`. -/
def save_stats (fs : files) (now : tm) (config : configs) (timer : ptimer) (path : String) :
    Option files :=
  match fs path with
  | none => none
  | some lines => some (Function.update fs path (some (lines ++ [log_entry now config timer])))

/-- How the signal handler ends the process. -/
inductive Shutdown where
  /-- Regular end through `exit(status)`. -/
  | exited (status : Int) (fs : files) (err : List Msg)
  /-- Undefined behaviour inside `save_stats`: a null `file` is written to, or
  a path without terminator is read. -/
  | undefined

/-- The function `sigint_handler`. -/
def sigint_handler (fs : files) (now : tm) (config : configs) (timer : ptimer)
    (err : List Msg) : Shutdown :=
  match config.save_path with
  | some (buffer.string path) =>
    match save_stats fs now config timer path with
    | none => Shutdown.undefined
    | some fs' => Shutdown.exited 0 fs' (err ++ [Msg.done])
  | some buffer.unterminated => Shutdown.undefined
  | none => Shutdown.exited 0 fs (err ++ [Msg.done])

/-- Number of ticks (calls of `inc`) among the events of a run. -/
def ticks (evs : List Event) : Nat :=
  evs.countP (fun e => e = Event.work_tick ∨ e = Event.break_tick)

/-- The control points at which the program is about to sleep for a tick: the
main loop with `is_work` true (before `print_and_sleep`), and the loop of
`take_break` with `is_break` true (before `sleep(1)`). -/
def about_to_sleep (config : configs) (s : MState) : Bool :=
  match s.loc with
  | Loc.main_loop => is_work config s.timer
  | Loc.break_loop => is_break config s.timer

/-! ## The clock: `inc` -/

/-- Effect of `n` ticks on a clock whose seconds are in range: the seconds
advance modulo 60 and the carries go to the minutes; the counters stay. -/
theorem inc_iterate (n : Nat) (t : ptimer) (h0 : 0 ≤ t.secs) (h59 : t.secs ≤ 59) :
    Nat.iterate inc n t =
      { secs := (t.secs + n) % 60, mins := t.mins + (t.secs + n) / 60,
        num_work := t.num_work, num_break := t.num_break } := by
  induction n with
  | zero =>
    have h1 : (t.secs + ((0 : Nat) : Int)) % 60 = t.secs := by omega
    have h2 : t.mins + (t.secs + ((0 : Nat) : Int)) / 60 = t.mins := by omega
    rw [h1, h2]
    rfl
  | succ n ih =>
    rw [Function.iterate_succ_apply', ih]
    unfold inc
    by_cases hs : (t.secs + (n : Int)) % 60 = 59
    · rw [if_pos hs]
      refine congr (congr (congr (congrArg ptimer.mk ?_) ?_) rfl) rfl
      · push_cast
        omega
      · push_cast
        omega
    · rw [if_neg hs]
      refine congr (congr (congr (congrArg ptimer.mk ?_) ?_) rfl) rfl
      · push_cast
        omega
      · push_cast
        omega

/-- C8: on a timer whose `secs` is in [0,59], `inc` with `secs == 59` adds one
to `mins` and sets `secs` to 0, otherwise it adds one to `secs` and leaves
`mins`; `num_work` and `num_break` are unchanged either way (and `secs` is
again in [0,59]). -/
theorem inc_spec (t : ptimer) (h0 : 0 ≤ t.secs) (h59 : t.secs ≤ 59) :
    (t.secs = 59 → (inc t).mins = t.mins + 1 ∧ (inc t).secs = 0) ∧
    (t.secs ≠ 59 → (inc t).secs = t.secs + 1 ∧ (inc t).mins = t.mins) ∧
    (inc t).num_work = t.num_work ∧ (inc t).num_break = t.num_break ∧
    0 ≤ (inc t).secs ∧ (inc t).secs ≤ 59 := by
  unfold inc
  by_cases hs : t.secs = 59
  · simp [hs]
  · simp [hs]
    omega

/-- Witness for `inc_spec`: the timer 7m:59s with two work cycles and one break. -/
theorem inc_spec_witness :
    (0 : Int) ≤ 59 ∧ (59 : Int) ≤ 59 ∧
    inc { secs := 59, mins := 7, num_work := 2, num_break := 1 }
      = { secs := 0, mins := 8, num_work := 2, num_break := 1 } ∧
    ((59 : Int) = 59 → (inc { secs := 59, mins := 7, num_work := 2, num_break := 1 }).mins = 7 + 1
        ∧ (inc { secs := 59, mins := 7, num_work := 2, num_break := 1 }).secs = 0) :=
  ⟨by decide, by decide, by decide,
   (inc_spec { secs := 59, mins := 7, num_work := 2, num_break := 1 } (by decide) (by decide)).1⟩

/-- C9: from `secs = 0`, `mins = M` (any counters), `k * 60` calls of `inc`
give `secs = 0`, `mins = M + k` with the counters unchanged; with `k = 1`,
sixty calls give `mins = M + 1`. -/
theorem inc_sixty (M k : Nat) (w b : Int) :
    Nat.iterate inc (k * 60) { secs := 0, mins := (M : Int), num_work := w, num_break := b }
      = { secs := 0, mins := (M : Int) + k, num_work := w, num_break := b } ∧
    Nat.iterate inc 60 { secs := 0, mins := (M : Int), num_work := w, num_break := b }
      = { secs := 0, mins := (M : Int) + 1, num_work := w, num_break := b } := by
  constructor
  · rw [inc_iterate _ _ (le_refl _) (by simp)]
    refine congr (congr (congr (congrArg ptimer.mk ?_) ?_) rfl) rfl
    · show ((0 : Int) + ((k * 60 : Nat) : Int)) % 60 = 0
      push_cast
      omega
    · show (M : Int) + ((0 : Int) + ((k * 60 : Nat) : Int)) / 60 = (M : Int) + k
      push_cast
      omega
  · rw [inc_iterate _ _ (le_refl _) (by simp)]
    rfl

/-! ## The main loop -/

/-- Running `a + b` transitions is running `a`, then `b` from the state reached. -/
theorem main_run_add (config : configs) (a b : Nat) (s : MState) :
    main_run config (a + b) s =
      ((main_run config a s).1 ++ (main_run config b (main_run config a s).2).1,
       (main_run config b (main_run config a s).2).2) := by
  induction a generalizing s with
  | zero => simp [main_run]
  | succ a ih =>
    have h : a + 1 + b = (a + b) + 1 := by omega
    rw [h]
    simp only [main_run, ih, List.cons_append]

/-- While `is_work` keeps holding, the main loop does nothing but work ticks. -/
theorem main_run_work (config : configs) (n : Nat) (t : ptimer)
    (h : ∀ j, j < n → is_work config (Nat.iterate inc j t) = true) :
    main_run config n { loc := Loc.main_loop, timer := t } =
      (List.replicate n Event.work_tick, { loc := Loc.main_loop, timer := Nat.iterate inc n t }) := by
  induction n generalizing t with
  | zero => rfl
  | succ n ih =>
    have h0 : is_work config t = true := h 0 (Nat.succ_pos n)
    have ih' := ih (inc t) (fun j hj => by
      have := h (j + 1) (Nat.succ_lt_succ hj)
      rwa [Function.iterate_succ_apply] at this)
    simp only [main_run, main_step, h0, if_true, ih', List.replicate_succ,
      Function.iterate_succ_apply]

/-- While `is_break` keeps holding, the loop of `take_break` does nothing but break ticks. -/
theorem main_run_break (config : configs) (n : Nat) (t : ptimer)
    (h : ∀ j, j < n → is_break config (Nat.iterate inc j t) = true) :
    main_run config n { loc := Loc.break_loop, timer := t } =
      (List.replicate n Event.break_tick, { loc := Loc.break_loop, timer := Nat.iterate inc n t }) := by
  induction n generalizing t with
  | zero => rfl
  | succ n ih =>
    have h0 : is_break config t = true := h 0 (Nat.succ_pos n)
    have ih' := ih (inc t) (fun j hj => by
      have := h (j + 1) (Nat.succ_lt_succ hj)
      rwa [Function.iterate_succ_apply] at this)
    simp only [main_run, main_step, h0, if_true, ih', List.replicate_succ,
      Function.iterate_succ_apply]

/-- Minutes shown after `j` ticks from 0:00. -/
theorem mins_after (j : Nat) (t : ptimer) (hs : t.secs = 0) (hm : t.mins = 0) :
    (Nat.iterate inc j t).mins = (j : Int) / 60 ∧ (Nat.iterate inc j t).secs = (j : Int) % 60 := by
  rw [inc_iterate j t (by omega) (by omega)]
  simp [hs, hm]

/-- From 0:00 the clock shows `T`:00 after exactly `T * 60` ticks. -/
theorem clock_full (T : Nat) (t : ptimer) (hs : t.secs = 0) (hm : t.mins = 0) :
    Nat.iterate inc (T * 60) t = { t with secs := 0, mins := (T : Int) } := by
  rw [inc_iterate (T * 60) t (by omega) (by omega)]
  refine congr (congr (congr (congrArg ptimer.mk ?_) ?_) rfl) rfl
  · rw [hs]
    push_cast
    omega
  · rw [hs, hm]
    push_cast
    omega

/-- C1: with work duration `W >= 1` and the clock at 0:00, the first `W * 60`
(a positive number of) transitions of the main loop are all work ticks, each taken with `is_work`
true and `mins < W`; they lead to `mins == W`, `secs == 0`, where `is_work` is
false and the next transition enters `take_break`; and no transition taken
with `mins == W` is a work tick. -/
theorem work_phase_ticks (config : configs) (W : Nat) (t : ptimer)
    (hW : 1 ≤ W) (hcfg : config.work_time = (W : Int)) (hs : t.secs = 0) (hm : t.mins = 0) :
    0 < W * 60 ∧
    main_run config (W * 60) { loc := Loc.main_loop, timer := t } =
      (List.replicate (W * 60) Event.work_tick,
       { loc := Loc.main_loop, timer := { t with secs := 0, mins := (W : Int) } }) ∧
    (∀ k, k < W * 60 →
        (main_run config k { loc := Loc.main_loop, timer := t }).2.loc = Loc.main_loop ∧
        is_work config (main_run config k { loc := Loc.main_loop, timer := t }).2.timer = true ∧
        (main_run config k { loc := Loc.main_loop, timer := t }).2.timer.mins < (W : Int)) ∧
    is_work config { t with secs := 0, mins := (W : Int) } = false ∧
    main_step config { loc := Loc.main_loop, timer := { t with secs := 0, mins := (W : Int) } } =
      (Event.enter_break,
       { loc := Loc.break_loop,
         timer := { secs := 0, mins := 0, num_work := t.num_work + 1, num_break := t.num_break } }) ∧
    (∀ s : MState, s.timer.mins = (W : Int) → (main_step config s).1 ≠ Event.work_tick) := by
  have hwork : ∀ j, j < W * 60 → is_work config (Nat.iterate inc j t) = true := by
    intro j hj
    have h1 := (mins_after j t hs hm).1
    unfold is_work
    rw [h1, hcfg]
    have : ((j : Int) / 60) ≠ (W : Int) := by omega
    simp [this]
  have hfalse : is_work config { t with secs := 0, mins := (W : Int) } = false := by
    simp [is_work, hcfg]
  refine ⟨by omega, ?_, ?_, hfalse, ?_, ?_⟩
  · rw [main_run_work config (W * 60) t hwork, clock_full W t hs hm]
  · intro k hk
    rw [main_run_work config k t (fun j hj => hwork j (lt_trans hj hk))]
    refine ⟨rfl, hwork k hk, ?_⟩
    show (Nat.iterate inc k t).mins < (W : Int)
    rw [(mins_after k t hs hm).1]
    omega
  · simp only [main_step, hfalse]
    rfl
  · intro s hsm
    unfold main_step
    cases hl : s.loc with
    | main_loop =>
      have : is_work config s.timer = false := by simp [is_work, hsm, hcfg]
      simp [this]
    | break_loop =>
      simp only
      split <;> simp

/-- Witness for `work_phase_ticks`: a one-minute work phase from the initial timer. -/
theorem work_phase_ticks_witness :
    main_run { work_time := 1, break_time := 5, save_path := none } (1 * 60)
        { loc := Loc.main_loop, timer := timer_init } =
      (List.replicate (1 * 60) Event.work_tick,
       { loc := Loc.main_loop, timer := { timer_init with secs := 0, mins := ((1 : Nat) : Int) } }) :=
  (work_phase_ticks { work_time := 1, break_time := 5, save_path := none } 1 timer_init
    (le_refl 1) rfl rfl rfl).2.1

/-- The break loop from 0:00 with break duration `B`: `B * 60` break ticks,
then `take_break` returns with the clock reset and `num_break` one higher. -/
theorem break_phase (config : configs) (B : Nat) (t : ptimer)
    (hcfg : config.break_time = (B : Int)) (hs : t.secs = 0) (hm : t.mins = 0) :
    main_run config (B * 60 + 1) { loc := Loc.break_loop, timer := t } =
      (List.replicate (B * 60) Event.break_tick ++ [Event.leave_break],
       { loc := Loc.main_loop,
         timer := { secs := 0, mins := 0, num_work := t.num_work,
                    num_break := t.num_break + 1 } }) := by
  have hbreak : ∀ j, j < B * 60 → is_break config (Nat.iterate inc j t) = true := by
    intro j hj
    have h1 := (mins_after j t hs hm).1
    unfold is_break
    rw [h1, hcfg]
    have : ((j : Int) / 60) ≠ (B : Int) := by omega
    simp [this]
  have hfalse : is_break config { t with secs := 0, mins := (B : Int) } = false := by
    simp [is_break, hcfg]
  rw [main_run_add, main_run_break config (B * 60) t hbreak, clock_full B t hs hm]
  simp only [main_run, main_step, hfalse]
  rfl

/-- One full cycle from the start of a work phase: the events of a cycle, and
the start of the next work phase with both counters one higher. -/
theorem main_run_cycle (config : configs) (W B : Nat) (a b : Int)
    (hw : config.work_time = (W : Int)) (hb : config.break_time = (B : Int)) :
    main_run config (W * 60 + 1 + (B * 60 + 1))
        { loc := Loc.main_loop, timer := { secs := 0, mins := 0, num_work := a, num_break := b } } =
      (cycle_events W B,
       { loc := Loc.main_loop,
         timer := { secs := 0, mins := 0, num_work := a + 1, num_break := b + 1 } }) := by
  have hwork : ∀ j, j < W * 60 → is_work config
      (Nat.iterate inc j { secs := 0, mins := 0, num_work := a, num_break := b }) = true := by
    intro j hj
    have h1 := (mins_after j { secs := 0, mins := 0, num_work := a, num_break := b } rfl rfl).1
    unfold is_work
    rw [h1, hw]
    have : ((j : Int) / 60) ≠ (W : Int) := by omega
    simp [this]
  have hfalse : is_work config { secs := 0, mins := (W : Int), num_work := a, num_break := b }
      = false := by
    simp [is_work, hw]
  have hstep : main_step config
      { loc := Loc.main_loop,
        timer := { secs := 0, mins := (W : Int), num_work := a, num_break := b } } =
      (Event.enter_break,
       { loc := Loc.break_loop,
         timer := { secs := 0, mins := 0, num_work := a + 1, num_break := b } }) := by
    simp only [main_step, hfalse]
    rfl
  have h1 : main_run config (W * 60 + 1)
      { loc := Loc.main_loop, timer := { secs := 0, mins := 0, num_work := a, num_break := b } } =
      (List.replicate (W * 60) Event.work_tick ++ [Event.enter_break],
       { loc := Loc.break_loop,
         timer := { secs := 0, mins := 0, num_work := a + 1, num_break := b } }) := by
    rw [main_run_add, main_run_work config (W * 60) _ hwork, clock_full W _ rfl rfl]
    simp only [main_run, hstep]
  rw [main_run_add, h1]
  simp only
  rw [break_phase config B _ hb rfl rfl]
  simp [cycle_events]

/-- C2: with durations `W >= 1` and `B >= 1`, the run of the main loop from
the all-zero timer through `N` full Work->Break cycles ends at the start of a
work phase with `num_work == N` and `num_break == N`; and every transition
leaves each counter unchanged or adds one to it: `num_work` grows exactly in
the transition that completes a work phase (entry of `take_break`),
`num_break` exactly in the one that completes a break (return of
`take_break`), so neither counter ever decreases. -/
theorem full_cycles_counters (config : configs) (W B N : Nat)
    (_hW : 1 ≤ W) (_hB : 1 ≤ B)
    (hw : config.work_time = (W : Int)) (hb : config.break_time = (B : Int)) :
    main_run config (N * (W * 60 + 1 + (B * 60 + 1))) main_init =
      (cycles_events W B N,
       { loc := Loc.main_loop,
         timer := { secs := 0, mins := 0, num_work := (N : Int), num_break := (N : Int) } }) ∧
    (∀ s : MState,
      (main_step config s).2.timer.num_work =
        s.timer.num_work + (if (main_step config s).1 = Event.enter_break then 1 else 0) ∧
      (main_step config s).2.timer.num_break =
        s.timer.num_break + (if (main_step config s).1 = Event.leave_break then 1 else 0) ∧
      s.timer.num_work ≤ (main_step config s).2.timer.num_work ∧
      s.timer.num_break ≤ (main_step config s).2.timer.num_break) := by
  constructor
  · induction N with
    | zero =>
      simp only [Nat.zero_mul, main_run, cycles_events]
      rfl
    | succ N ih =>
      have hsplit : (N + 1) * (W * 60 + 1 + (B * 60 + 1))
          = N * (W * 60 + 1 + (B * 60 + 1)) + (W * 60 + 1 + (B * 60 + 1)) := by ring
      rw [hsplit, main_run_add, ih]
      simp only
      rw [main_run_cycle config W B _ _ hw hb]
      have hev : ∀ n, cycles_events W B n ++ cycle_events W B = cycles_events W B (n + 1) := by
        intro n
        induction n with
        | zero => simp [cycles_events]
        | succ n ihn =>
          show cycle_events W B ++ cycles_events W B n ++ cycle_events W B = _
          rw [List.append_assoc, ihn]
          rfl
      rw [hev]
      push_cast
      rfl
  · intro s
    have hinc : ∀ t : ptimer, (inc t).num_work = t.num_work ∧ (inc t).num_break = t.num_break := by
      intro t
      unfold inc
      split <;> exact ⟨rfl, rfl⟩
    unfold main_step
    cases s.loc with
    | main_loop =>
      simp only
      split
      · simp [hinc]
      · simp [take_break_enter]
    | break_loop =>
      simp only
      split
      · simp [hinc]
      · simp [take_break_leave]

/-- Witness for `full_cycles_counters`: two cycles of one work minute and one
break minute take 244 transitions and leave both counters at 2. -/
theorem full_cycles_counters_witness :
    main_run { work_time := 1, break_time := 1, save_path := none } (2 * (1 * 60 + 1 + (1 * 60 + 1)))
        main_init =
      (cycles_events 1 1 2,
       { loc := Loc.main_loop,
         timer := { secs := 0, mins := 0, num_work := ((2 : Nat) : Int),
                    num_break := ((2 : Nat) : Int) } }) :=
  (full_cycles_counters { work_time := 1, break_time := 1, save_path := none } 1 1 2
    (le_refl 1) (le_refl 1) rfl rfl).1

/-! ## `take_break` as a function -/

/-- The loop of `take_break`, `r` ticks before the clock shows `B`:00: with
more fuel than `r` it returns after exactly `r` further calls of `inc`, with
the clock at `B`:00; with less it has not returned yet. -/
theorem take_break_loop_spec (config : configs) (B : Nat)
    (hcfg : config.break_time = (B : Int)) (r fuel : Nat) (t : ptimer) (n : Nat)
    (h0 : 0 ≤ t.secs) (h59 : t.secs ≤ 59) (hr : t.mins * 60 + t.secs + (r : Int) = (B : Int) * 60) :
    take_break_loop config fuel t n =
      if r < fuel then some ({ t with secs := 0, mins := (B : Int) }, n + r) else none := by
  induction fuel generalizing r t n with
  | zero => simp [take_break_loop]
  | succ fuel ih =>
    unfold take_break_loop
    cases r with
    | zero =>
      have hm : t.mins = (B : Int) := by omega
      have hs : t.secs = 0 := by omega
      have hb : is_break config t = false := by simp [is_break, hm, hcfg]
      simp only [hb, Nat.zero_lt_succ, if_true, Nat.add_zero]
      cases t
      simp only at hm hs
      simp [hm, hs]
    | succ r =>
      have hm : t.mins ≠ (B : Int) := by
        push_cast at hr
        omega
      have hb : is_break config t = true := by simp [is_break, hcfg, hm]
      simp only [hb, if_true]
      have hinc : 0 ≤ (inc t).secs ∧ (inc t).secs ≤ 59 ∧
          (inc t).mins * 60 + (inc t).secs + (r : Int) = (B : Int) * 60 := by
        unfold inc
        push_cast at hr
        split
        · simp only
          omega
        · simp only
          omega
      rw [ih r (inc t) (n + 1) hinc.1 hinc.2.1 hinc.2.2]
      have hfields : ({ inc t with secs := 0, mins := (B : Int) } : ptimer)
          = { t with secs := 0, mins := (B : Int) } := by
        unfold inc
        split <;> rfl
      rw [hfields]
      by_cases hlt : r < fuel
      · rw [if_pos hlt, if_pos (Nat.succ_lt_succ hlt)]
        congr 2
        omega
      · rw [if_neg hlt, if_neg (fun h => hlt (Nat.lt_of_succ_lt_succ h))]

/-- Result of `take_break` for every amount of fuel. -/
theorem take_break_eval (config : configs) (B : Nat) (t : ptimer)
    (hcfg : config.break_time = (B : Int)) (fuel : Nat) :
    take_break config fuel t =
      if B * 60 < fuel then
        some ({ secs := 0, mins := 0, num_work := t.num_work + 1,
                num_break := t.num_break + 1 }, B * 60)
      else none := by
  have hloop : take_break_loop config fuel (take_break_enter t) 0 =
      if B * 60 < fuel then
        some ({ take_break_enter t with secs := 0, mins := (B : Int) }, 0 + B * 60)
      else none := by
    apply take_break_loop_spec config B hcfg
    · exact le_refl _
    · show (0 : Int) ≤ 59
      decide
    · show (0 : Int) * 60 + 0 + ((B * 60 : Nat) : Int) = (B : Int) * 60
      push_cast
      omega
  unfold take_break
  rw [hloop]
  by_cases hf : B * 60 < fuel
  · rw [if_pos hf, if_pos hf]
    simp [take_break_leave, take_break_enter]
  · rw [if_neg hf, if_neg hf]

/-- The transitions of the main loop through one break are a call of
`take_break`: same number of ticks, same timer on return. -/
theorem main_run_take_break (config : configs) (B : Nat) (t : ptimer)
    (hcfg : config.break_time = (B : Int)) (hw : is_work config t = false) :
    ∃ t', take_break config (B * 60 + 1) t = some (t', B * 60) ∧
      main_run config (1 + (B * 60 + 1)) { loc := Loc.main_loop, timer := t } =
        ([Event.enter_break] ++ (List.replicate (B * 60) Event.break_tick ++ [Event.leave_break]),
         { loc := Loc.main_loop, timer := t' }) := by
  refine ⟨{ secs := 0, mins := 0, num_work := t.num_work + 1, num_break := t.num_break + 1 },
    ?_, ?_⟩
  · rw [take_break_eval config B t hcfg, if_pos (Nat.lt_succ_self _)]
  · rw [main_run_add]
    have h1 : main_run config 1 { loc := Loc.main_loop, timer := t } =
        ([Event.enter_break], { loc := Loc.break_loop, timer := take_break_enter t }) := by
      simp only [main_run, main_step, hw]
      rfl
    rw [h1]
    simp only
    rw [break_phase config B (take_break_enter t) hcfg rfl rfl]
    rfl

/-- C10: with break duration `B >= 1`, `take_break` entered with any timer `t`
returns (given fuel for more than `B * 60` loop tests) after exactly `B * 60`
calls of `inc`, with `secs = 0`, `mins = 0`, `num_work = t.num_work + 1` and
`num_break = t.num_break + 1`; with fuel for at most `B * 60` loop tests it
has not returned yet. -/
theorem take_break_spec (config : configs) (B : Nat) (t : ptimer)
    (hB : 1 ≤ B) (hcfg : config.break_time = (B : Int)) :
    0 < B * 60 ∧
    (∀ fuel, B * 60 < fuel →
      take_break config fuel t =
        some ({ secs := 0, mins := 0, num_work := t.num_work + 1,
                num_break := t.num_break + 1 }, B * 60)) ∧
    (∀ fuel, fuel ≤ B * 60 → take_break config fuel t = none) := by
  refine ⟨by omega, ?_, ?_⟩
  · intro fuel hf
    rw [take_break_eval config B t hcfg, if_pos hf]
  · intro fuel hf
    rw [take_break_eval config B t hcfg, if_neg (by omega)]

/-- Witness for `take_break_spec`: a one-minute break entered at 25m:00s. -/
theorem take_break_spec_witness :
    take_break { work_time := 25, break_time := 1, save_path := none } 61
        { secs := 0, mins := 25, num_work := 3, num_break := 3 } =
      some ({ secs := 0, mins := 0, num_work := 3 + 1, num_break := 3 + 1 }, 1 * 60) :=
  (take_break_spec { work_time := 25, break_time := 1, save_path := none } 1
    { secs := 0, mins := 25, num_work := 3, num_break := 3 } (le_refl 1) rfl).2.1 61 (by decide)

/-! ## Statistics: `save_stats` -/

/-- C3: the total `elapsed` that `save_stats` computes is
`num_work*work_time*60 + num_break*break_time*60 + mins*60 + secs`, and that
is the seconds field of the line it appends when the file opens; for
`work_time=25`, `break_time=5`, `num_work=2`, `num_break=1`, `mins=3`,
`secs=30` the total is 3510. -/
theorem save_stats_total (fs : files) (now : tm) (config : configs) (timer : ptimer)
    (path : String) :
    elapsed config timer =
      timer.num_work * config.work_time * 60 + timer.num_break * config.break_time * 60 +
        timer.mins * 60 + timer.secs ∧
    save_stats fs now config timer path =
      Option.map
        (fun lines => Function.update fs path (some (lines ++
          [{ log_entry now config timer with
              secs := timer.num_work * config.work_time * 60 +
                timer.num_break * config.break_time * 60 + timer.mins * 60 + timer.secs }])))
        (fs path) ∧
    elapsed { work_time := 25, break_time := 5, save_path := some path }
      { secs := 30, mins := 3, num_work := 2, num_break := 1 } = 3510 := by
  have h : elapsed config timer =
      timer.num_work * config.work_time * 60 + timer.num_break * config.break_time * 60 +
        timer.mins * 60 + timer.secs := by
    unfold elapsed
    ring
  refine ⟨h, ?_, rfl⟩
  unfold save_stats
  cases fs path with
  | none => rfl
  | some lines =>
    simp only [Option.map]
    rw [← h]
    rfl

/-- C4: when the file opens and the total `T = elapsed` is not negative, the
line `save_stats` appends carries the three duration fields `T / 3600`,
`T / 60` and `T`, each taken from the same `T` (no field is reduced modulo
60); for the total 3510 of the 25/5 example they are 0, 58 and 3510. -/
theorem save_stats_fields (fs : files) (now : tm) (config : configs) (timer : ptimer)
    (path : String) (lines : List log_line)
    (hopen : fs path = some lines) (hT : 0 ≤ elapsed config timer) :
    save_stats fs now config timer path =
      some (Function.update fs path (some (lines ++
        [{ year := now.tm_year + 1900, mon := now.tm_mon + 1, mday := now.tm_mday,
           hour := now.tm_hour, min := now.tm_min,
           hrs := elapsed config timer / 3600,
           mins := elapsed config timer / 60,
           secs := elapsed config timer }]))) ∧
    (log_entry now { work_time := 25, break_time := 5, save_path := some path }
        { secs := 30, mins := 3, num_work := 2, num_break := 1 }).hrs = 0 ∧
    (log_entry now { work_time := 25, break_time := 5, save_path := some path }
        { secs := 30, mins := 3, num_work := 2, num_break := 1 }).mins = 58 ∧
    (log_entry now { work_time := 25, break_time := 5, save_path := some path }
        { secs := 30, mins := 3, num_work := 2, num_break := 1 }).secs = 3510 := by
  refine ⟨?_, rfl, rfl, rfl⟩
  unfold save_stats
  rw [hopen]
  simp only [log_entry]
  rw [Int.tdiv_eq_ediv hT (by decide), Int.tdiv_eq_ediv hT (by decide)]

/-- Witness for `save_stats_fields`: three work cycles and two breaks of the
default configuration, saved at 0m:00s into an empty log: 5100 seconds are
logged as 1 hour, 85 minutes, 5100 seconds. -/
theorem save_stats_fields_witness :
    save_stats (fun _ => some [])
        { tm_year := 121, tm_mon := 3, tm_mday := 27, tm_hour := 9, tm_min := 30 }
        config_init { secs := 0, mins := 0, num_work := 3, num_break := 2 } "pom.log" =
      some (Function.update (fun _ => some []) "pom.log" (some ([] ++
        [{ year := 121 + 1900, mon := 3 + 1, mday := 27, hour := 9, min := 30,
           hrs := elapsed config_init { secs := 0, mins := 0, num_work := 3, num_break := 2 } / 3600,
           mins := elapsed config_init { secs := 0, mins := 0, num_work := 3, num_break := 2 } / 60,
           secs := elapsed config_init { secs := 0, mins := 0, num_work := 3, num_break := 2 } }]))) ∧
    elapsed config_init { secs := 0, mins := 0, num_work := 3, num_break := 2 } / 3600 = 1 ∧
    elapsed config_init { secs := 0, mins := 0, num_work := 3, num_break := 2 } / 60 = 85 ∧
    elapsed config_init { secs := 0, mins := 0, num_work := 3, num_break := 2 } = 5100 :=
  ⟨(save_stats_fields (fun _ => some [])
      { tm_year := 121, tm_mon := 3, tm_mday := 27, tm_hour := 9, tm_min := 30 }
      config_init { secs := 0, mins := 0, num_work := 3, num_break := 2 } "pom.log" [] rfl
      (by decide)).1,
    by decide, by decide, by decide⟩

/-! ## Command line: `consume_args` -/

/-- One turn of the loop of `consume_args`. -/
theorem consume_args_cons (BUFSIZ : Nat) (config : configs) (x a : String) (rest : List String)
    (err : List Msg) :
    consume_args BUFSIZ config (x :: a :: rest) err =
      match consume_body BUFSIZ config (a :: rest) err with
      | Outcome.exited c e => Outcome.exited c e
      | Outcome.returned (config', argv') e => consume_args BUFSIZ config' argv' e := by
  rw [consume_args]
  split <;> rename_i h <;> simp [h]

/-- After `k` turns of the loop that did not exit, `consume_args` goes on from
the `config`, `argv` and `stderr` reached. -/
theorem consume_args_steps (BUFSIZ : Nat) (k : Nat) (config config' : configs)
    (argv argv' : List String) (err err' : List Msg)
    (h : consume_steps BUFSIZ k config argv err = Outcome.returned (config', argv') err') :
    consume_args BUFSIZ config argv err = consume_args BUFSIZ config' argv' err' := by
  induction k generalizing config argv err with
  | zero =>
    simp only [consume_steps] at h
    cases h
    rfl
  | succ k ih =>
    match argv, h with
    | [], h =>
      simp only [consume_steps] at h
      cases h
      rfl
    | [x], h =>
      simp only [consume_steps] at h
      cases h
      rfl
    | x :: a :: rest, h =>
      rw [consume_args_cons]
      simp only [consume_steps] at h
      cases hb : consume_body BUFSIZ config (a :: rest) err with
      | exited c e =>
        rw [hb] at h
        cases h
      | returned val e =>
        rw [hb] at h
        exact ih _ _ _ h

/-- The function `get_option` on `--work` or `--break` with a value `v` present:
it exits with status 1 when `atoi v < 1`, and stores `atoi v` otherwise. -/
theorem get_option_time (BUFSIZ : Nat) (config : configs) (a v : String) (rest : List String)
    (err : List Msg) :
    get_option BUFSIZ config (a :: v :: rest) "--work" err =
      (if atoi v < 1 then Outcome.exited 1 (err ++ [Msg.bad_value (atoi v) "--work"])
       else Outcome.returned ({ config with work_time := atoi v }, v :: rest) err) ∧
    get_option BUFSIZ config (a :: v :: rest) "--break" err =
      (if atoi v < 1 then Outcome.exited 1 (err ++ [Msg.bad_value (atoi v) "--break"])
       else Outcome.returned ({ config with break_time := atoi v }, v :: rest) err) := by
  constructor
  · by_cases hv : atoi v < 1
    · simp [get_option, bad_option, MODE_FAIL, hv]
    · simp [get_option, hv]
  · by_cases hv : atoi v < 1
    · simp [get_option, bad_option, MODE_FAIL, hv]
    · simp [get_option, hv]

/-- The loop body hands a work or break option over to `get_option`. -/
theorem consume_body_time (BUFSIZ : Nat) (config : configs) (opt : String) (rest : List String)
    (err : List Msg) (hopt : opt = "--work" ∨ opt = "-w" ∨ opt = "--break" ∨ opt = "-b") :
    consume_body BUFSIZ config (opt :: rest) err =
      get_option BUFSIZ config (opt :: rest)
        (if opt = "--work" ∨ opt = "-w" then "--work" else "--break") err := by
  rcases hopt with h | h | h | h <;> subst h <;> simp [consume_body]

/-- The loop body on a help flag: usage text, `exit(0)`. -/
theorem consume_body_help (BUFSIZ : Nat) (config : configs) (h : String) (rest : List String)
    (err : List Msg) (hh : h = "--help" ∨ h = "-h") :
    consume_body BUFSIZ config (h :: rest) err = Outcome.exited 0 (err ++ [Msg.help_msg]) := by
  rcases hh with h1 | h1 <;> subst h1 <;> simp [consume_body]

/-- C5: when the loop of `consume_args` gets through `pre` without exiting and
then stands before `opt` (one of `--work`, `-w`, `--break`, `-b`) followed by
a value `v` with `atoi v < 1` (`atoi v` being the `int` that `atoi` returns
and `get_option` tests), `consume_args` ends the process with status 1 (after
the error message about the value) and does not return. -/
theorem bad_value_exits (BUFSIZ k : Nat) (config config' : configs) (err err' : List Msg)
    (prog x opt v : String) (pre post : List String)
    (hopt : opt = "--work" ∨ opt = "-w" ∨ opt = "--break" ∨ opt = "-b")
    (hpre : consume_steps BUFSIZ k config (prog :: (pre ++ [opt, v] ++ post)) err =
      Outcome.returned (config', x :: opt :: v :: post) err')
    (hv : atoi v < 1) :
    consume_args BUFSIZ config (prog :: (pre ++ [opt, v] ++ post)) err =
      Outcome.exited 1 (err' ++
        [Msg.bad_value (atoi v) (if opt = "--work" ∨ opt = "-w" then "--work" else "--break")]) ∧
    (consume_args BUFSIZ config (prog :: (pre ++ [opt, v] ++ post)) err).status = some 1 ∧
    (consume_args BUFSIZ config (prog :: (pre ++ [opt, v] ++ post)) err).value = none := by
  have hmain : consume_args BUFSIZ config (prog :: (pre ++ [opt, v] ++ post)) err =
      Outcome.exited 1 (err' ++
        [Msg.bad_value (atoi v) (if opt = "--work" ∨ opt = "-w" then "--work" else "--break")]) := by
    rw [consume_args_steps BUFSIZ k _ _ _ _ _ _ hpre, consume_args_cons,
      consume_body_time BUFSIZ config' opt (v :: post) err' hopt]
    by_cases hw : opt = "--work" ∨ opt = "-w"
    · rw [if_pos hw, (get_option_time BUFSIZ config' opt v post err').1, if_pos hv]
    · rw [if_neg hw, (get_option_time BUFSIZ config' opt v post err').2, if_pos hv]
  refine ⟨hmain, ?_, ?_⟩
  · rw [hmain]
    rfl
  · rw [hmain]
    rfl

/-- Witness for `bad_value_exits`: `pom_timer -f log.txt bogus -w abc --help`;
two turns of the loop handle `-f log.txt` and `bogus`, then `-w abc` exits 1.
(The digits `-2147483649` are outside the theorem: `atoi` returns 2147483647
for them.) -/
theorem bad_value_exits_witness :
    atoi "abc" = 0 ∧ atoi "0" = 0 ∧ atoi "-4" = -4 ∧ atoi "-2147483649" = 2147483647 ∧
    consume_args 8192 config_init
        ("pom_timer" :: (["-f", "log.txt", "bogus"] ++ ["-w", "abc"] ++ ["--help"])) [] =
      Outcome.exited 1 ([Msg.bad_option "bogus"] ++
        [Msg.bad_value (atoi "abc") (if "-w" = "--work" ∨ "-w" = "-w" then "--work" else "--break")]) :=
  ⟨by decide, by decide, by decide, by decide,
   (bad_value_exits 8192 2 config_init { config_init with save_path := some "log.txt" }
      [] [Msg.bad_option "bogus"] "pom_timer" "bogus" "-w" "abc" ["-f", "log.txt", "bogus"]
      ["--help"] (by decide) (by decide) (by decide)).1⟩

/-- C6, as the code has it: when the loop of `consume_args` gets through `pre`
without exiting and then stands before `-h` or `--help`, `consume_args`
prints the usage text and ends the process with status 0, whatever follows. -/
theorem help_exits (BUFSIZ k : Nat) (config config' : configs) (err err' : List Msg)
    (prog x h : String) (pre post : List String)
    (hh : h = "--help" ∨ h = "-h")
    (hpre : consume_steps BUFSIZ k config (prog :: (pre ++ h :: post)) err =
      Outcome.returned (config', x :: h :: post) err') :
    consume_args BUFSIZ config (prog :: (pre ++ h :: post)) err =
      Outcome.exited 0 (err' ++ [Msg.help_msg]) := by
  rw [consume_args_steps BUFSIZ k _ _ _ _ _ _ hpre, consume_args_cons,
    consume_body_help BUFSIZ config' h post err' hh]

/-- Witness for `help_exits`: `pom_timer junk -w 3 -h --work 0`; the help flag
is reached after two turns of the loop and wins over the bad value after it. -/
theorem help_exits_witness :
    consume_args 8192 config_init ("pom_timer" :: (["junk", "-w", "3"] ++ "-h" :: ["--work", "0"]))
        [] =
      Outcome.exited 0 ([Msg.bad_option "junk"] ++ [Msg.help_msg]) :=
  help_exits 8192 2 config_init { config_init with work_time := 3 } [] [Msg.bad_option "junk"]
    "pom_timer" "3" "-h" ["junk", "-w", "3"] ["--work", "0"] (by decide) (by decide)

/-- C6 fails as stated: in `pom_timer --work 0 --help` the list contains
`--help`, yet the process exits with status 1 before the flag is looked at;
in `pom_timer -f --help` the flag is taken as the log path and `consume_args`
returns, so the timer starts. -/
theorem help_anywhere_counterexample :
    "--help" ∈ ["pom_timer", "--work", "0", "--help"] ∧
    consume_args 8192 config_init ["pom_timer", "--work", "0", "--help"] [] =
      Outcome.exited 1 [Msg.bad_value 0 "--work"] ∧
    (consume_args 8192 config_init ["pom_timer", "--work", "0", "--help"] []).status ≠ some 0 ∧
    "--help" ∈ ["pom_timer", "-f", "--help"] ∧
    consume_args 8192 config_init ["pom_timer", "-f", "--help"] [] =
      Outcome.returned { work_time := 25, break_time := 5, save_path := some "--help" } [] := by
  have h1 : consume_args 8192 config_init ["pom_timer", "--work", "0", "--help"] [] =
      Outcome.exited 1 [Msg.bad_value 0 "--work"] := by
    rw [consume_args_cons]
    rfl
  refine ⟨by decide, h1, ?_, by decide, ?_⟩
  · rw [h1]
    decide
  · rw [consume_args_cons]
    have hb : consume_body 8192 config_init ["-f", "--help"] [] =
        Outcome.returned ({ work_time := 25, break_time := 5, save_path := some "--help" },
          ["--help"]) [] := by decide
    rw [hb]
    simp only
    rw [consume_args]

/-- C7, as the code has it: given `[opt, v]` with `opt` one of `--work`, `-w`,
`--break`, `-b`, `consume_args` looks only at the `int` `atoi v`: below 1 it
exits with status 1 after the error message; from 1 on it returns with
`atoi v` stored as the work (or break) duration, whatever else `v` contains. -/
theorem duration_value_check (BUFSIZ : Nat) (config : configs) (err : List Msg)
    (prog opt v : String)
    (hopt : opt = "--work" ∨ opt = "-w" ∨ opt = "--break" ∨ opt = "-b") :
    consume_args BUFSIZ config [prog, opt, v] err =
      if atoi v < 1 then
        Outcome.exited 1 (err ++
          [Msg.bad_value (atoi v) (if opt = "--work" ∨ opt = "-w" then "--work" else "--break")])
      else if opt = "--work" ∨ opt = "-w" then
        Outcome.returned { config with work_time := atoi v } err
      else
        Outcome.returned { config with break_time := atoi v } err := by
  rw [consume_args_cons, consume_body_time BUFSIZ config opt [v] err hopt]
  by_cases hw : opt = "--work" ∨ opt = "-w"
  · rw [if_pos hw, (get_option_time BUFSIZ config opt v [] err).1]
    by_cases hv : atoi v < 1
    · simp only [if_pos hv]
    · simp only [if_neg hv, if_pos hw]
      rw [consume_args]
  · rw [if_neg hw, (get_option_time BUFSIZ config opt v [] err).2]
    by_cases hv : atoi v < 1
    · simp only [if_pos hv]
    · simp only [if_neg hv, if_neg hw]
      rw [consume_args]

/-- Witness for `duration_value_check`: `pom_timer -b " +7 min"` stores 7.
(For digits outside the range of `int` the `int` that `atoi` returns decides
as well: 1 for `4294967297`, -2147483648 for `2147483648`.) -/
theorem duration_value_check_witness :
    atoi " +7 min" = 7 ∧ atoi "4294967297" = 1 ∧ atoi "2147483648" = -2147483648 ∧
    consume_args 8192 config_init ["pom_timer", "-b", " +7 min"] [] =
      if atoi " +7 min" < 1 then
        Outcome.exited 1 ([] ++
          [Msg.bad_value (atoi " +7 min") (if "-b" = "--work" ∨ "-b" = "-w" then "--work" else "--break")])
      else if "-b" = "--work" ∨ "-b" = "-w" then
        Outcome.returned { config_init with work_time := atoi " +7 min" } []
      else
        Outcome.returned { config_init with break_time := atoi " +7 min" } [] :=
  ⟨by decide, by decide, by decide,
   duration_value_check 8192 config_init [] "pom_timer" "-b" " +7 min" (by decide)⟩

/-- C7 fails as stated: `5abc` is not the decimal representation of an
integer (it has non-digit characters after the digit), yet
`pom_timer --work 5abc` does not exit: `consume_args` returns with a work
duration of 5 and no message. -/
theorem strict_value_counterexample :
    ("5abc".data.all isdigit) = false ∧
    atoi "5abc" = 5 ∧
    consume_args 8192 config_init ["pom_timer", "--work", "5abc"] [] =
      Outcome.returned { work_time := 5, break_time := 5, save_path := none } [] := by
  refine ⟨by decide, by decide, ?_⟩
  rw [consume_args_cons]
  have hb : consume_body 8192 config_init ["--work", "5abc"] [] =
      Outcome.returned ({ work_time := 5, break_time := 5, save_path := none }, ["5abc"]) [] := by
    decide
  rw [hb]
  simp only
  rw [consume_args]

/-! ## Invariants of the running timer -/

/-- Running one more transition. -/
theorem main_run_succ (config : configs) (n : Nat) (s : MState) :
    main_run config (n + 1) s =
      ((main_run config n s).1 ++ [(main_step config (main_run config n s).2).1],
       (main_step config (main_run config n s).2).2) := by
  rw [main_run_add]
  rfl

/-- A property of trace and state that holds at the start and is kept by every
transition holds after any number of transitions. -/
theorem main_run_induct (config : configs) (P : List Event → MState → Prop) (s0 : MState)
    (h0 : P [] s0)
    (hstep : ∀ evs s, P evs s → P (evs ++ [(main_step config s).1]) (main_step config s).2)
    (n : Nat) : P (main_run config n s0).1 (main_run config n s0).2 := by
  induction n with
  | zero => exact h0
  | succ n ih =>
    rw [main_run_succ]
    exact hstep _ _ ih

/-- C17: with `W >= 1` and `B >= 1`, every state the running timer reaches from
the all-zero timer, in the main loop or inside the loop of `take_break`, has
`secs` in [0,59] and `mins`, `num_work`, `num_break` not negative. -/
theorem reachable_ranges (config : configs) (W B : Nat) (_hW : 1 ≤ W) (_hB : 1 ≤ B)
    (_hw : config.work_time = (W : Int)) (_hb : config.break_time = (B : Int)) (n : Nat) :
    0 ≤ (main_run config n main_init).2.timer.secs ∧
    (main_run config n main_init).2.timer.secs ≤ 59 ∧
    0 ≤ (main_run config n main_init).2.timer.mins ∧
    0 ≤ (main_run config n main_init).2.timer.num_work ∧
    0 ≤ (main_run config n main_init).2.timer.num_break := by
  apply main_run_induct config
    (fun _ s => 0 ≤ s.timer.secs ∧ s.timer.secs ≤ 59 ∧ 0 ≤ s.timer.mins ∧
      0 ≤ s.timer.num_work ∧ 0 ≤ s.timer.num_break)
  · decide
  · intro evs s h
    obtain ⟨h1, h2, h3, h4, h5⟩ := h
    have hinc : 0 ≤ (inc s.timer).secs ∧ (inc s.timer).secs ≤ 59 ∧ 0 ≤ (inc s.timer).mins ∧
        0 ≤ (inc s.timer).num_work ∧ 0 ≤ (inc s.timer).num_break := by
      unfold inc
      split
      · refine ⟨le_refl _, (by show (0 : Int) ≤ 59; decide), ?_, h4, h5⟩
        show 0 ≤ s.timer.mins + 1
        omega
      · refine ⟨?_, ?_, h3, h4, h5⟩
        · show 0 ≤ s.timer.secs + 1
          omega
        · show s.timer.secs + 1 ≤ 59
          omega
    unfold main_step
    cases s.loc with
    | main_loop =>
      simp only
      split
      · exact hinc
      · refine ⟨le_refl _, (by show (0 : Int) ≤ 59; decide), le_refl _, ?_, h5⟩
        show 0 ≤ s.timer.num_work + 1
        omega
    | break_loop =>
      simp only
      split
      · exact hinc
      · refine ⟨le_refl _, (by show (0 : Int) ≤ 59; decide), le_refl _, h4, ?_⟩
        show 0 ≤ s.timer.num_break + 1
        omega

set_option maxRecDepth 8000 in
/-- Witness for `reachable_ranges`: the state after 62 transitions with one
work minute and one break minute. -/
theorem reachable_ranges_witness :
    (main_run { work_time := 1, break_time := 1, save_path := none } 62 main_init).2 =
      { loc := Loc.break_loop, timer := { secs := 1, mins := 0, num_work := 1, num_break := 0 } } ∧
    0 ≤ (main_run { work_time := 1, break_time := 1, save_path := none } 62
          main_init).2.timer.secs ∧
    (main_run { work_time := 1, break_time := 1, save_path := none } 62
          main_init).2.timer.secs ≤ 59 :=
  ⟨by decide,
   (reachable_ranges { work_time := 1, break_time := 1, save_path := none } 1 1
      (le_refl 1) (le_refl 1) rfl rfl 62).1,
   (reachable_ranges { work_time := 1, break_time := 1, save_path := none } 1 1
      (le_refl 1) (le_refl 1) rfl rfl 62).2.1⟩

/-- Ticks of a run extended by one event. -/
theorem ticks_append (evs : List Event) (e : Event) :
    ticks (evs ++ [e]) =
      ticks evs + (if e = Event.work_tick ∨ e = Event.break_tick then 1 else 0) := by
  unfold ticks
  rw [List.countP_append]
  cases e <;> simp

/-- A tick adds one second to the total `elapsed`. -/
theorem elapsed_inc (config : configs) (t : ptimer) :
    elapsed config (inc t) = elapsed config t + 1 := by
  unfold elapsed inc
  split
  · rename_i h
    simp only [h]
    ring
  · simp only
    ring

/-- Along every run from the all-zero timer: the clock shows a full minute
whenever it shows the duration of the current phase, and the total `elapsed`
is the number of ticks so far. -/
theorem elapsed_invariant (config : configs) (n : Nat) :
    ((main_run config n main_init).2.loc = Loc.main_loop →
      (main_run config n main_init).2.timer.mins = config.work_time →
      (main_run config n main_init).2.timer.secs = 0) ∧
    ((main_run config n main_init).2.loc = Loc.break_loop →
      (main_run config n main_init).2.timer.mins = config.break_time →
      (main_run config n main_init).2.timer.secs = 0) ∧
    elapsed config (main_run config n main_init).2.timer =
      (ticks (main_run config n main_init).1 : Int) := by
  apply main_run_induct config
    (fun evs s =>
      (s.loc = Loc.main_loop → s.timer.mins = config.work_time → s.timer.secs = 0) ∧
      (s.loc = Loc.break_loop → s.timer.mins = config.break_time → s.timer.secs = 0) ∧
      elapsed config s.timer = (ticks evs : Int))
  · refine ⟨fun _ _ => rfl, fun _ _ => rfl, ?_⟩
    simp [elapsed, main_init, timer_init, ticks]
  · intro evs s h
    obtain ⟨h1, h2, h3⟩ := h
    have hsec : ∀ (T : Int), s.timer.mins ≠ T → (inc s.timer).mins = T → (inc s.timer).secs = 0 := by
      intro T hne
      unfold inc
      split
      · intro _
        rfl
      · intro hm
        exact absurd hm hne
    rw [ticks_append]
    cases hl : s.loc with
    | main_loop =>
      by_cases hw : s.timer.mins = config.work_time
      · have hf : is_work config s.timer = false := by simp [is_work, hw]
        have hs0 := h1 hl hw
        have hstep : main_step config s =
            (Event.enter_break, { loc := Loc.break_loop, timer := take_break_enter s.timer }) := by
          simp [main_step, hl, hf]
        rw [hstep]
        refine ⟨fun h => (by cases h), fun _ _ => rfl, ?_⟩
        simp only [reduceCtorEq, or_self, if_false, Nat.cast_add, Nat.cast_zero, add_zero]
        rw [← h3]
        unfold elapsed take_break_enter
        simp only [hw, hs0]
        ring
      · have ht : is_work config s.timer = true := by simp [is_work, hw]
        have hstep : main_step config s =
            (Event.work_tick, { loc := Loc.main_loop, timer := inc s.timer }) := by
          simp [main_step, hl, ht]
        rw [hstep]
        refine ⟨fun _ => hsec _ hw, fun h => (by cases h), ?_⟩
        show elapsed config (inc s.timer) = _
        rw [elapsed_inc, h3]
        simp
    | break_loop =>
      by_cases hb : s.timer.mins = config.break_time
      · have hf : is_break config s.timer = false := by simp [is_break, hb]
        have hs0 := h2 hl hb
        have hstep : main_step config s =
            (Event.leave_break, { loc := Loc.main_loop, timer := take_break_leave s.timer }) := by
          simp [main_step, hl, hf]
        rw [hstep]
        refine ⟨fun _ _ => rfl, fun h => (by cases h), ?_⟩
        simp only [reduceCtorEq, or_self, if_false, Nat.cast_add, Nat.cast_zero, add_zero]
        rw [← h3]
        unfold elapsed take_break_leave
        simp only [hb, hs0]
        ring
      · have ht : is_break config s.timer = true := by simp [is_break, hb]
        have hstep : main_step config s =
            (Event.break_tick, { loc := Loc.break_loop, timer := inc s.timer }) := by
          simp [main_step, hl, ht]
        rw [hstep]
        refine ⟨fun h => (by cases h), fun _ => hsec _ hb, ?_⟩
        show elapsed config (inc s.timer) = _
        rw [elapsed_inc, h3]
        simp

/-- C19: with `W >= 1` and `B >= 1`, at every point of a run from the all-zero
timer where the program is about to sleep for a tick, in the main loop or in
`take_break`, the total `num_work*W*60 + num_break*B*60 + mins*60 + secs`
(the total and seconds field `save_stats` would log there) equals the number
of ticks performed since start-up. -/
theorem logged_total_is_running_time (config : configs) (W B : Nat) (_hW : 1 ≤ W) (_hB : 1 ≤ B)
    (hw : config.work_time = (W : Int)) (hb : config.break_time = (B : Int)) (n : Nat)
    (now : tm)
    (_hsleep : about_to_sleep config (main_run config n main_init).2 = true) :
    (main_run config n main_init).2.timer.num_work * (W : Int) * 60 +
      (main_run config n main_init).2.timer.num_break * (B : Int) * 60 +
      (main_run config n main_init).2.timer.mins * 60 +
      (main_run config n main_init).2.timer.secs =
        (ticks (main_run config n main_init).1 : Int) ∧
    elapsed config (main_run config n main_init).2.timer =
      (ticks (main_run config n main_init).1 : Int) ∧
    (log_entry now config (main_run config n main_init).2.timer).secs =
      (ticks (main_run config n main_init).1 : Int) := by
  have h := (elapsed_invariant config n).2.2
  refine ⟨?_, h, h⟩
  rw [← h, ← hw, ← hb]
  unfold elapsed
  ring

set_option maxRecDepth 8000 in
/-- Witness for `logged_total_is_running_time`: one work minute, one break
minute; after 62 transitions (60 work ticks, entry of `take_break`, one break
tick) the program is about to sleep and the total is 61. -/
theorem logged_total_is_running_time_witness :
    about_to_sleep { work_time := 1, break_time := 1, save_path := none }
      (main_run { work_time := 1, break_time := 1, save_path := none } 62 main_init).2 = true ∧
    ticks (main_run { work_time := 1, break_time := 1, save_path := none } 62 main_init).1 = 61 ∧
    elapsed { work_time := 1, break_time := 1, save_path := none }
      (main_run { work_time := 1, break_time := 1, save_path := none } 62 main_init).2.timer =
        (ticks (main_run { work_time := 1, break_time := 1, save_path := none } 62
          main_init).1 : Int) :=
  ⟨by decide, by decide,
   (logged_total_is_running_time { work_time := 1, break_time := 1, save_path := none } 1 1
      (le_refl 1) (le_refl 1) rfl rfl 62
      { tm_year := 121, tm_mon := 3, tm_mday := 27, tm_hour := 9, tm_min := 30 }
      (by decide)).2.1⟩

/-! ## Shutdown: `sigint_handler` -/

/-- The handler where nothing goes wrong: with a log path whose file opens,
it appends the one line of `save_stats` for the current configuration and
timer and ends the process with status 0; with no log path it leaves the
files as they are and ends the process with status 0. -/
theorem sigint_handler_opens (fs : files) (now : tm) (config : configs) (timer : ptimer)
    (err : List Msg) :
    (∀ path lines, config.save_path = some (buffer.string path) → fs path = some lines →
      sigint_handler fs now config timer err =
        Shutdown.exited 0
          (Function.update fs path (some (lines ++ [log_entry now config timer])))
          (err ++ [Msg.done])) ∧
    (config.save_path = none →
      sigint_handler fs now config timer err = Shutdown.exited 0 fs (err ++ [Msg.done])) := by
  refine ⟨?_, ?_⟩
  · intro path lines hp hl
    unfold sigint_handler save_stats
    rw [hp]
    simp only
    rw [hl]
  · intro hp
    unfold sigint_handler
    rw [hp]

/-- C14, evaluated where it fails: a log path is configured
(`/no/such/dir/pom.log`) but cannot be opened, and the signal comes right
after start-up; the handler makes its call of `save_stats`, which does not
return, so the handler does not end the process with status 0 (nor with any
other status through `exit`). -/
theorem handler_open_failure :
    sigint_handler (fun _ => none)
        { tm_year := 121, tm_mon := 3, tm_mday := 27, tm_hour := 9, tm_min := 30 }
        { work_time := 25, break_time := 5, save_path := some "/no/such/dir/pom.log" }
        timer_init [] = Shutdown.undefined ∧
    ∀ (status : Int) (fs' : files) (err' : List Msg),
      sigint_handler (fun _ => none)
        { tm_year := 121, tm_mon := 3, tm_mday := 27, tm_hour := 9, tm_min := 30 }
        { work_time := 25, break_time := 5, save_path := some "/no/such/dir/pom.log" }
        timer_init [] ≠ Shutdown.exited status fs' err' := by
  have h : sigint_handler (fun _ => none)
      { tm_year := 121, tm_mon := 3, tm_mday := 27, tm_hour := 9, tm_min := 30 }
      { work_time := 25, break_time := 5, save_path := some "/no/such/dir/pom.log" }
      timer_init [] = Shutdown.undefined := rfl
  refine ⟨h, fun status fs' err' hex => ?_⟩
  rw [h] at hex
  cases hex

/-- C15, evaluated where it fails: the log path `/no/such/dir/pom.log` cannot
be opened; `save_stats` then passes the null result of `fopen` to `fprintf`
and does not return normally, and `sigint_handler` neither prints its
farewell nor reaches `exit(0)`. -/
theorem open_failure_not_silent :
    save_stats (fun _ => none)
        { tm_year := 121, tm_mon := 3, tm_mday := 27, tm_hour := 9, tm_min := 30 }
        { work_time := 25, break_time := 5, save_path := some "/no/such/dir/pom.log" }
        { secs := 30, mins := 3, num_work := 2, num_break := 2 } "/no/such/dir/pom.log" = none ∧
    sigint_handler (fun _ => none)
        { tm_year := 121, tm_mon := 3, tm_mday := 27, tm_hour := 9, tm_min := 30 }
        { work_time := 25, break_time := 5, save_path := some "/no/such/dir/pom.log" }
        { secs := 30, mins := 3, num_work := 2, num_break := 2 } [] = Shutdown.undefined :=
  ⟨rfl, rfl⟩

/-! ## Command line: what `consume_args` leaves in `config` -/

/-- The function `consume_args` on an argument vector with no argument left to look at. -/
theorem consume_args_done (BUFSIZ : Nat) (config : configs) (err : List Msg) :
    consume_args BUFSIZ config [] err = Outcome.returned config err ∧
    ∀ x, consume_args BUFSIZ config [x] err = Outcome.returned config err := by
  constructor
  · rw [consume_args]
  · intro x
    rw [consume_args]

/-- What `get_option` returns: nothing changed but a warning when no value
follows; otherwise the value is consumed, and the duration it stores is at
least 1. -/
theorem get_option_returned (BUFSIZ : Nat) (config config' : configs) (a : String)
    (rest argv' : List String) (opt_name : String) (err err' : List Msg)
    (h : get_option BUFSIZ config (a :: rest) opt_name err =
      Outcome.returned (config', argv') err') :
    (rest = [] ∧ argv' = [a] ∧ config' = config ∧ err' = err ++ [Msg.need_value opt_name]) ∨
    (rest ≠ [] ∧ argv' = rest ∧ err' = err ∧
      (config'.work_time = config.work_time ∨ 1 ≤ config'.work_time) ∧
      (config'.break_time = config.break_time ∨ 1 ≤ config'.break_time)) := by
  cases rest with
  | nil =>
    left
    simp [get_option] at h
    exact ⟨rfl, h.1.2.symm, h.1.1.symm, h.2.symm⟩
  | cons v rest =>
    right
    unfold get_option at h
    simp only [List.length_cons, gt_iff_lt, Nat.lt_add_left_iff_pos, Nat.zero_lt_succ, if_true,
      List.tail_cons, List.headD_cons] at h
    by_cases hwb : opt_name = "--work" ∨ opt_name = "--break"
    · by_cases hv : atoi v < 1
      · simp [hwb, hv, bad_option, MODE_FAIL] at h
      · simp only [hwb, hv, if_true, if_false] at h
        cases h
        refine ⟨by simp, rfl, rfl, ?_, ?_⟩
        · by_cases h1 : opt_name = "--work"
          · right
            subst h1
            simp
            omega
          · left
            by_cases h2 : opt_name = "--break" <;> by_cases h3 : opt_name = "--log-file" <;>
              simp [h1, h2, h3]
        · by_cases h2 : opt_name = "--break"
          · right
            subst h2
            simp
            omega
          · left
            by_cases h1 : opt_name = "--work" <;> by_cases h3 : opt_name = "--log-file" <;>
              simp [h1, h2, h3]
    · simp only [hwb, if_false] at h
      cases h
      have h1 : opt_name ≠ "--work" := fun h => hwb (Or.inl h)
      have h2 : opt_name ≠ "--break" := fun h => hwb (Or.inr h)
      refine ⟨by simp, rfl, rfl, ?_, ?_⟩
      · left
        by_cases h3 : opt_name = "--log-file" <;> simp [h1, h2, h3]
      · left
        by_cases h3 : opt_name = "--log-file" <;> simp [h1, h2, h3]

/-- What one pass of the loop body returns: the argument pointer stays or
moves one on (past a value), and a duration is unchanged or at least 1. -/
theorem consume_body_returned (BUFSIZ : Nat) (config config' : configs) (a : String)
    (rest argv' : List String) (err err' : List Msg)
    (h : consume_body BUFSIZ config (a :: rest) err = Outcome.returned (config', argv') err') :
    (argv' = a :: rest ∨ (rest ≠ [] ∧ argv' = rest)) ∧
    (config'.work_time = config.work_time ∨ 1 ≤ config'.work_time) ∧
    (config'.break_time = config.break_time ∨ 1 ≤ config'.break_time) := by
  have hget : ∀ opt_name, get_option BUFSIZ config (a :: rest) opt_name err =
      Outcome.returned (config', argv') err' →
      (argv' = a :: rest ∨ (rest ≠ [] ∧ argv' = rest)) ∧
      (config'.work_time = config.work_time ∨ 1 ≤ config'.work_time) ∧
      (config'.break_time = config.break_time ∨ 1 ≤ config'.break_time) := by
    intro opt_name hg
    rcases get_option_returned _ _ _ _ _ _ _ _ _ hg with ⟨hr, ha, hc, _⟩ | ⟨hr, ha, _, hw, hb⟩
    · subst hr
      subst hc
      exact ⟨Or.inl ha, Or.inl rfl, Or.inl rfl⟩
    · exact ⟨Or.inr ⟨hr, ha⟩, hw, hb⟩
  unfold consume_body at h
  simp only [List.headD_cons] at h
  split at h
  · cases h
  split at h
  · exact hget _ h
  split at h
  · exact hget _ h
  split at h
  · exact hget _ h
  · unfold bad_option at h
    simp [ MODE_CONTINUE, MODE_FAIL] at h
    obtain ⟨⟨hc, ha⟩, _⟩ := h
    subst hc
    exact ⟨Or.inl ha.symm, Or.inl rfl, Or.inl rfl⟩

/-- Durations of at least 1 stay so through `consume_args`, when it returns. -/
theorem consume_args_positive (BUFSIZ : Nat) (n : Nat) :
    ∀ (config config' : configs) (argv : List String) (err err' : List Msg),
      argv.length ≤ n → 1 ≤ config.work_time → 1 ≤ config.break_time →
      consume_args BUFSIZ config argv err = Outcome.returned config' err' →
      1 ≤ config'.work_time ∧ 1 ≤ config'.break_time := by
  induction n with
  | zero =>
    intro config config' argv err err' hn hw hb h
    have : argv = [] := List.length_eq_zero.mp (Nat.le_zero.mp hn)
    subst this
    rw [(consume_args_done BUFSIZ config err).1] at h
    cases h
    exact ⟨hw, hb⟩
  | succ n ih =>
    intro config config' argv err err' hn hw hb h
    match argv, hn, h with
    | [], _, h =>
      rw [(consume_args_done BUFSIZ config err).1] at h
      cases h
      exact ⟨hw, hb⟩
    | [x], _, h =>
      rw [(consume_args_done BUFSIZ config err).2 x] at h
      cases h
      exact ⟨hw, hb⟩
    | x :: a :: rest, hn, h =>
      rw [consume_args_cons] at h
      cases hbody : consume_body BUFSIZ config (a :: rest) err with
      | exited c e =>
        rw [hbody] at h
        cases h
      | returned val e =>
        obtain ⟨config1, argv1⟩ := val
        rw [hbody] at h
        simp only at h
        obtain ⟨hpos, hw1, hb1⟩ := consume_body_returned _ _ _ _ _ _ _ _ hbody
        have hlen : argv1.length ≤ n := by
          simp only [List.length_cons] at hn
          rcases hpos with h1 | ⟨_, h1⟩
          · rw [h1]
            simp only [List.length_cons]
            omega
          · rw [h1]
            omega
        exact ih config1 config' argv1 e err' hlen (by omega) (by omega) h

/-- C18: from the default configuration (25, 5, no log path), whenever
`consume_args` returns, the configuration it leaves has `work_time >= 1` and
`break_time >= 1`; with no arguments after the program name it is exactly the
default configuration. -/
theorem consume_args_durations (BUFSIZ : Nat) (argv : List String) (err err' : List Msg)
    (config' : configs)
    (h : consume_args BUFSIZ config_init argv err = Outcome.returned config' err') :
    1 ≤ config'.work_time ∧ 1 ≤ config'.break_time ∧
    config_init = { work_time := 25, break_time := 5, save_path := none } ∧
    consume_args BUFSIZ config_init [] err = Outcome.returned config_init err ∧
    ∀ prog, consume_args BUFSIZ config_init [prog] err = Outcome.returned config_init err := by
  have hpos := consume_args_positive BUFSIZ argv.length config_init config' argv err err'
    (le_refl _) (by decide) (by decide) h
  exact ⟨hpos.1, hpos.2, rfl, (consume_args_done BUFSIZ config_init err).1,
    (consume_args_done BUFSIZ config_init err).2⟩

/-- Witness for `consume_args_durations`: `pom_timer -w 50 -b 10`. -/
theorem consume_args_durations_witness :
    consume_args 8192 config_init ["pom_timer", "-w", "50", "-b", "10"] [] =
      Outcome.returned { work_time := 50, break_time := 10, save_path := none } [] ∧
    (1 : Int) ≤ 50 ∧ (1 : Int) ≤ 10 :=
  have h : consume_args 8192 config_init ["pom_timer", "-w", "50", "-b", "10"] [] =
      Outcome.returned { work_time := 50, break_time := 10, save_path := none } [] := by
    rw [consume_args_steps 8192 2 config_init
      { work_time := 50, break_time := 10, save_path := none }
      ["pom_timer", "-w", "50", "-b", "10"] ["10"] [] [] (by decide)]
    exact (consume_args_done 8192 _ []).2 "10"
  ⟨h, (consume_args_durations 8192 ["pom_timer", "-w", "50", "-b", "10"] [] []
        { work_time := 50, break_time := 10, save_path := none } h).1,
      (consume_args_durations 8192 ["pom_timer", "-w", "50", "-b", "10"] [] []
        { work_time := 50, break_time := 10, save_path := none } h).2.1⟩

/-! ## Command line: the log path -/

/-- A string of fewer than `n` bytes is copied whole by `strncpy`. -/
theorem strncpy_short (src : String) (n : Nat) (h : strlen src < n) :
    strncpy src n = buffer.string src := by
  unfold strncpy
  rw [if_pos h]

/-- Bytes of a string made of `n` times the same character. -/
theorem strlen_replicate (c : Char) (n : Nat) :
    strlen (String.mk (List.replicate n c)) = n * c.utf8Size := by
  show String.utf8ByteSize.go (List.replicate n c) = n * c.utf8Size
  induction n with
  | zero => simp [String.utf8ByteSize.go]
  | succ n ih =>
    rw [List.replicate_succ, String.utf8ByteSize.go, ih]
    ring

/-- The function `consume_args` on a single log-file option with its value:
it returns with the copy `strncpy` made of the value as the log path, and
nothing else changed. -/
theorem consume_args_log (BUFSIZ : Nat) (config : configs) (err : List Msg)
    (prog opt p : String) (hopt : opt = "--log-file" ∨ opt = "-f") :
    consume_args BUFSIZ config [prog, opt, p] err =
      Outcome.returned { config with save_path := some (strncpy p BUFSIZ) } err := by
  rw [consume_args_cons]
  have hb : consume_body BUFSIZ config [opt, p] err =
      Outcome.returned ({ config with save_path := some (strncpy p BUFSIZ) }, [p]) err := by
    rcases hopt with h | h <;> subst h <;> simp [consume_body, get_option]
  rw [hb]
  simp only
  exact (consume_args_done BUFSIZ _ err).2 p

/-- C16, as the code has it: for every path string `p` of fewer than `BUFSIZ`
bytes, `consume_args` given `[--log-file, p]` (or `[-f, p]`) returns with the
log path equal to `p` verbatim, also when `p` is itself a flag name, and with
`work_time` and `break_time` unchanged. -/
theorem log_path_verbatim (BUFSIZ : Nat) (config : configs) (err : List Msg)
    (prog opt p : String) (hopt : opt = "--log-file" ∨ opt = "-f") (hp : strlen p < BUFSIZ) :
    consume_args BUFSIZ config [prog, opt, p] err =
      Outcome.returned
        { work_time := config.work_time, break_time := config.break_time,
          save_path := some (buffer.string p) }
        err := by
  rw [consume_args_log BUFSIZ config err prog opt p hopt, strncpy_short p BUFSIZ hp]

/-- Witness for `log_path_verbatim`: `pom_timer -f --help` stores `--help`. -/
theorem log_path_verbatim_witness :
    strlen "--help" = 6 ∧
    consume_args 8192 config_init ["pom_timer", "-f", "--help"] [] =
      Outcome.returned
        { work_time := config_init.work_time, break_time := config_init.break_time,
          save_path := some (buffer.string "--help") } [] :=
  ⟨by decide,
   log_path_verbatim 8192 config_init [] "pom_timer" "-f" "--help" (by decide) (by decide)⟩

/-- C16 fails as stated: with `BUFSIZ = 8192`, a path of 8193 characters `a`
(8193 bytes) is not stored verbatim: `strncpy` fills the buffer with its
first 8192 bytes and writes no terminator, so `save_path` does not point to
the string `p`; the same holds for a path of 5000 two-byte characters (code
point 233), which has 10000 bytes. -/
theorem long_path_counterexample :
    consume_args 8192 config_init ["pom_timer", "--log-file", String.mk (List.replicate 8193 'a')]
        [] =
      Outcome.returned
        { work_time := 25, break_time := 5, save_path := some buffer.unterminated } [] ∧
    some buffer.unterminated ≠ some (buffer.string (String.mk (List.replicate 8193 'a'))) ∧
    strlen (String.mk (List.replicate 5000 (Char.ofNat 233))) = 10000 ∧
    consume_args 8192 config_init
        ["pom_timer", "--log-file", String.mk (List.replicate 5000 (Char.ofNat 233))] [] =
      Outcome.returned
        { work_time := 25, break_time := 5, save_path := some buffer.unterminated } [] := by
  have ha : strlen (String.mk (List.replicate 8193 'a')) = 8193 := by
    rw [strlen_replicate]
    rfl
  have he : strlen (String.mk (List.replicate 5000 (Char.ofNat 233))) = 10000 := by
    rw [strlen_replicate]
    rfl
  refine ⟨?_, ?_, he, ?_⟩
  · rw [consume_args_log 8192 config_init [] "pom_timer" "--log-file" _ (Or.inl rfl)]
    unfold strncpy
    rw [ha, if_neg (by decide)]
    rfl
  · intro h
    cases h
  · rw [consume_args_log 8192 config_init [] "pom_timer" "--log-file" _ (Or.inl rfl)]
    unfold strncpy
    rw [he, if_neg (by decide)]
    rfl

/-! ## Command line: the duration options -/

/-- The character of a decimal digit is a digit, with that digit as its value. -/
theorem digitChar_spec : ∀ m, m < 10 →
    isdigit (Nat.digitChar m) = true ∧ (Nat.digitChar m).toNat - 48 = m := by
  decide

/-- A digit is neither white space nor a sign. -/
theorem isdigit_not_space (c : Char) (h : isdigit c = true) :
    isspace c = false ∧ c ≠ '-' ∧ c ≠ '+' := by
  have h1 : 48 ≤ c.toNat := by
    simp [isdigit] at h
    exact h.1
  refine ⟨?_, ?_, ?_⟩
  · unfold isspace
    simp only [Bool.or_eq_false_iff, decide_eq_false_iff_not]
    refine ⟨⟨⟨⟨⟨?_, ?_⟩, ?_⟩, ?_⟩, ?_⟩, ?_⟩ <;>
    · intro hc
      rw [hc] at h1
      revert h1
      decide
  · intro hc
    rw [hc] at h1
    revert h1
    decide
  · intro hc
    rw [hc] at h1
    revert h1
    decide

/-- Reading a run of digits, then going on with what follows. -/
theorem atoi_digits_append (l r : List Char) (hl : ∀ c ∈ l, isdigit c = true) (acc : Nat) :
    atoi_digits acc (l ++ r) = atoi_digits (atoi_digits acc l) r := by
  induction l generalizing acc with
  | nil => rfl
  | cons c l ih =>
    have hc : isdigit c = true := hl c (List.mem_cons_self c l)
    simp only [List.cons_append, atoi_digits, hc, if_true]
    exact ih (fun c' hc' => hl c' (List.mem_cons_of_mem c hc')) _

/-- The decimal digits of `n`, as Lean writes them, are read back as `n`. -/
theorem toDigitsCore_spec (fuel : Nat) : ∀ (n : Nat) (ds : List Char), n < fuel →
    ∃ l, Nat.toDigitsCore 10 fuel n ds = l ++ ds ∧ l ≠ [] ∧ (∀ c ∈ l, isdigit c = true) ∧
      ∀ acc, atoi_digits acc l = acc * 10 ^ l.length + n := by
  induction fuel with
  | zero =>
    intro n ds h
    omega
  | succ fuel ih =>
    intro n ds h
    have hd := digitChar_spec (n % 10) (Nat.mod_lt n (by decide))
    unfold Nat.toDigitsCore
    simp only
    by_cases h0 : n / 10 = 0
    · rw [if_pos h0]
      refine ⟨[Nat.digitChar (n % 10)], rfl, by simp, ?_, ?_⟩
      · intro c hc
        rw [List.mem_singleton] at hc
        rw [hc]
        exact hd.1
      · intro acc
        simp only [atoi_digits, hd.1, if_true, hd.2, List.length_singleton, pow_one]
        omega
    · rw [if_neg h0]
      obtain ⟨l, hl, _, hdig, hval⟩ := ih (n / 10) (Nat.digitChar (n % 10) :: ds) (by omega)
      refine ⟨l ++ [Nat.digitChar (n % 10)], ?_, by simp, ?_, ?_⟩
      · rw [hl]
        simp
      · intro c hc
        rw [List.mem_append, List.mem_singleton] at hc
        rcases hc with hc | hc
        · exact hdig c hc
        · rw [hc]
          exact hd.1
      · intro acc
        rw [atoi_digits_append l _ hdig, hval]
        simp only [atoi_digits, hd.1, if_true, hd.2, List.length_append, List.length_singleton,
          pow_succ]
        have := Nat.div_add_mod n 10
        nlinarith [this]

/-- The function `atoi` reads the decimal representation of an `n` in the
range of `int` as `n`. -/
theorem atoi_toString (n : Nat) (hmax : (n : Int) ≤ INT_MAX) : atoi (toString n) = (n : Int) := by
  obtain ⟨l, hl, hne, hdig, hval⟩ := toDigitsCore_spec (n + 1) n [] (Nat.lt_succ_self n)
  have hdata : (toString n).data = l := by
    show Nat.toDigitsCore 10 (n + 1) n [] = l
    rw [hl, List.append_nil]
  have hmax' : (n : Int) ≤ 2147483647 := hmax
  have hstr : strtol (toString n) = (n : Int) := by
    unfold strtol
    rw [hdata]
    cases l with
    | nil => exact absurd rfl hne
    | cons c cs =>
      have hc := isdigit_not_space c (hdig c (List.mem_cons_self c cs))
      have hdrop : List.dropWhile isspace (c :: cs) = c :: cs := by
        simp [List.dropWhile, hc.1]
      rw [hdrop]
      have hv : atoi_digits 0 (c :: cs) = n := by
        rw [hval 0]
        simp
      have hvalue : (match c :: cs with
          | '-' :: cs => - (atoi_digits 0 cs : Int)
          | '+' :: cs => (atoi_digits 0 cs : Int)
          | cs => (atoi_digits 0 cs : Int)) = (n : Int) := by
        split
        · rename_i cs' heq
          cases heq
          exact absurd rfl hc.2.1
        · rename_i cs' heq
          cases heq
          exact absurd rfl hc.2.2
        · rw [hv]
      simp only [hvalue]
      have h1 : ¬ (n : Int) > LONG_MAX := by
        unfold LONG_MAX
        omega
      have h2 : ¬ (n : Int) < LONG_MIN := by
        unfold LONG_MIN
        omega
      rw [if_neg h1, if_neg h2]
  unfold atoi
  rw [hstr]
  unfold to_int
  omega

/-- The function `consume_args` on a single work or break option whose value
has an `atoi` of at least 1: the value is stored, nothing else changes. -/
theorem consume_args_accept (BUFSIZ : Nat) (config : configs) (err : List Msg)
    (prog v : String) (hv : 1 ≤ atoi v) :
    (∀ opt, opt = "--work" ∨ opt = "-w" →
      consume_args BUFSIZ config [prog, opt, v] err =
        Outcome.returned { config with work_time := atoi v } err) ∧
    (∀ opt, opt = "--break" ∨ opt = "-b" →
      consume_args BUFSIZ config [prog, opt, v] err =
        Outcome.returned { config with break_time := atoi v } err) := by
  have hnot : ¬ atoi v < 1 := by omega
  constructor
  · intro opt hopt
    have hopt' : opt = "--work" ∨ opt = "-w" ∨ opt = "--break" ∨ opt = "-b" := by
      rcases hopt with h | h
      · exact Or.inl h
      · exact Or.inr (Or.inl h)
    rw [consume_args_cons, consume_body_time BUFSIZ config opt [v] err hopt', if_pos hopt,
      (get_option_time BUFSIZ config opt v [] err).1, if_neg hnot]
    simp only
    exact (consume_args_done BUFSIZ _ err).2 v
  · intro opt hopt
    have hopt' : opt = "--work" ∨ opt = "-w" ∨ opt = "--break" ∨ opt = "-b" := by
      rcases hopt with h | h
      · exact Or.inr (Or.inr (Or.inl h))
      · exact Or.inr (Or.inr (Or.inr h))
    have hw : ¬ (opt = "--work" ∨ opt = "-w") := by
      rcases hopt with h | h <;> subst h <;> decide
    rw [consume_args_cons, consume_body_time BUFSIZ config opt [v] err hopt', if_neg hw,
      (get_option_time BUFSIZ config opt v [] err).2, if_neg hnot]
    simp only
    exact (consume_args_done BUFSIZ _ err).2 v

/-- C11, as the code has it: for every `N` with `1 <= N <= INT_MAX` (written
in decimal) and every starting configuration, `consume_args` given
`[--work, N]` or `[-w, N]` returns with `work_time = N`, and given
`[--break, N]` or `[-b, N]` with `break_time = N`; the other duration and the
log path are unchanged. -/
theorem duration_option_sets (BUFSIZ : Nat) (config : configs) (err : List Msg) (prog : String)
    (N : Nat) (hN : 1 ≤ N) (hmax : (N : Int) ≤ INT_MAX) :
    consume_args BUFSIZ config [prog, "--work", toString N] err =
      Outcome.returned
        { work_time := (N : Int), break_time := config.break_time,
          save_path := config.save_path } err ∧
    consume_args BUFSIZ config [prog, "-w", toString N] err =
      Outcome.returned
        { work_time := (N : Int), break_time := config.break_time,
          save_path := config.save_path } err ∧
    consume_args BUFSIZ config [prog, "--break", toString N] err =
      Outcome.returned
        { work_time := config.work_time, break_time := (N : Int),
          save_path := config.save_path } err ∧
    consume_args BUFSIZ config [prog, "-b", toString N] err =
      Outcome.returned
        { work_time := config.work_time, break_time := (N : Int),
          save_path := config.save_path } err := by
  have hv : 1 ≤ atoi (toString N) := by
    rw [atoi_toString N hmax]
    exact_mod_cast hN
  have h := consume_args_accept BUFSIZ config err prog (toString N) hv
  rw [atoi_toString N hmax] at h
  exact ⟨h.1 _ (Or.inl rfl), h.1 _ (Or.inr rfl), h.2 _ (Or.inl rfl), h.2 _ (Or.inr rfl)⟩

/-- Witness for `duration_option_sets`: `pom_timer --work 50` with a log path
already configured. -/
theorem duration_option_sets_witness :
    toString 50 = "50" ∧
    consume_args 8192 { work_time := 25, break_time := 5, save_path := some "pom.log" }
        ["pom_timer", "--work", toString 50] [] =
      Outcome.returned
        { work_time := ((50 : Nat) : Int), break_time := 5, save_path := some "pom.log" } [] :=
  ⟨by decide,
   (duration_option_sets 8192 { work_time := 25, break_time := 5, save_path := some "pom.log" }
      [] "pom_timer" 50 (by decide) (by decide)).1⟩

/-- C11 fails as stated: `N = 2147483648` is at least 1, but it is not an
`int`; `atoi` returns -2147483648 for its digits, and `pom_timer --work
2147483648` ends with the error message and status 1 instead of returning
with `work_time = N`. -/
theorem int_range_counterexample :
    (1 : Nat) ≤ 2147483648 ∧
    toString 2147483648 = "2147483648" ∧
    atoi (toString 2147483648) = -2147483648 ∧
    consume_args 8192 config_init ["pom_timer", "--work", toString 2147483648] [] =
      Outcome.exited 1 [Msg.bad_value (-2147483648) "--work"] := by
  have hs : toString 2147483648 = "2147483648" := by decide
  refine ⟨by decide, hs, ?_, ?_⟩
  · rw [hs]
    decide
  · rw [hs, consume_args_cons]
    rfl

/-! ## Command line: arguments the loop passes over -/

/-- The function `get_option` on `--log-file` with a value present. -/
theorem get_option_log (BUFSIZ : Nat) (config : configs) (a v : String) (rest : List String)
    (err : List Msg) :
    get_option BUFSIZ config (a :: v :: rest) "--log-file" err =
      Outcome.returned ({ config with save_path := some (strncpy v BUFSIZ) }, v :: rest) err := by
  simp [get_option]

/-- One pass of the loop body over an argument that has a successor: it stays
on an unrecognized argument, whatever follows it, or it moves on to the
successor, whatever follows that. -/
theorem consume_body_tail (BUFSIZ : Nat) (config c1 : configs) (a v : String)
    (tl argv1 : List String) (err e1 : List Msg)
    (h : consume_body BUFSIZ config (a :: v :: tl) err = Outcome.returned (c1, argv1) e1) :
    (argv1 = a :: v :: tl ∧
      ∀ L, consume_body BUFSIZ config (a :: L) err = Outcome.returned (c1, a :: L) e1) ∨
    (argv1 = v :: tl ∧
      ∀ tl', consume_body BUFSIZ config (a :: v :: tl') err =
        Outcome.returned (c1, v :: tl') e1) := by
  by_cases hh : a = "--help" ∨ a = "-h"
  · rw [consume_body_help BUFSIZ config a _ err hh] at h
    cases h
  by_cases hw : a = "--work" ∨ a = "-w"
  · right
    have ht : a = "--work" ∨ a = "-w" ∨ a = "--break" ∨ a = "-b" := by
      rcases hw with h1 | h1
      · exact Or.inl h1
      · exact Or.inr (Or.inl h1)
    rw [consume_body_time BUFSIZ config a _ err ht, if_pos hw,
      (get_option_time BUFSIZ config a v tl err).1] at h
    by_cases hv : atoi v < 1
    · rw [if_pos hv] at h
      cases h
    · rw [if_neg hv] at h
      cases h
      refine ⟨rfl, fun tl' => ?_⟩
      rw [consume_body_time BUFSIZ config a _ err ht, if_pos hw,
        (get_option_time BUFSIZ config a v tl' err).1, if_neg hv]
  by_cases hb : a = "--break" ∨ a = "-b"
  · right
    have ht : a = "--work" ∨ a = "-w" ∨ a = "--break" ∨ a = "-b" := by
      rcases hb with h1 | h1
      · exact Or.inr (Or.inr (Or.inl h1))
      · exact Or.inr (Or.inr (Or.inr h1))
    rw [consume_body_time BUFSIZ config a _ err ht, if_neg hw,
      (get_option_time BUFSIZ config a v tl err).2] at h
    by_cases hv : atoi v < 1
    · rw [if_pos hv] at h
      cases h
    · rw [if_neg hv] at h
      cases h
      refine ⟨rfl, fun tl' => ?_⟩
      rw [consume_body_time BUFSIZ config a _ err ht, if_neg hw,
        (get_option_time BUFSIZ config a v tl' err).2, if_neg hv]
  by_cases hf : a = "--log-file" ∨ a = "-f"
  · right
    have hbody : ∀ L, consume_body BUFSIZ config (a :: L) err =
        get_option BUFSIZ config (a :: L) "--log-file" err := by
      intro L
      simp only [consume_body, List.headD_cons, if_neg hh, if_neg hw, if_neg hb, if_pos hf]
    rw [hbody, get_option_log] at h
    cases h
    refine ⟨rfl, fun tl' => ?_⟩
    rw [hbody, get_option_log]
  · left
    have hbody : ∀ L, consume_body BUFSIZ config (a :: L) err =
        Outcome.returned (config, a :: L) (err ++ [Msg.bad_option a]) := by
      intro L
      simp [consume_body, hh, hw, hb, hf, bad_option, MODE_CONTINUE, MODE_FAIL]
    rw [hbody] at h
    cases h
    exact ⟨rfl, hbody⟩

/-- The argument pointer never moves back: after any turns of the loop no
more arguments are left than before, and fewer after at least one turn when
there was an argument to look at. -/
theorem consume_steps_length (BUFSIZ : Nat) (k : Nat) :
    ∀ (config config' : configs) (argv argv' : List String) (err err' : List Msg),
      consume_steps BUFSIZ k config argv err = Outcome.returned (config', argv') err' →
      argv'.length ≤ argv.length ∧ (0 < k → 2 ≤ argv.length → argv'.length < argv.length) := by
  induction k with
  | zero =>
    intro config config' argv argv' err err' h
    simp only [consume_steps] at h
    cases h
    exact ⟨le_refl _, fun h0 => absurd h0 (lt_irrefl 0)⟩
  | succ k ih =>
    intro config config' argv argv' err err' h
    match argv, h with
    | [], h =>
      simp only [consume_steps] at h
      cases h
      exact ⟨le_refl _, fun _ h2 => absurd h2 (by simp)⟩
    | [x], h =>
      simp only [consume_steps] at h
      cases h
      exact ⟨le_refl _, fun _ h2 => absurd h2 (by simp)⟩
    | x :: a :: rest, h =>
      simp only [consume_steps] at h
      cases hbody : consume_body BUFSIZ config (a :: rest) err with
      | exited c e =>
        rw [hbody] at h
        cases h
      | returned val e =>
        obtain ⟨c1, argv1⟩ := val
        rw [hbody] at h
        simp only at h
        have h1 := (consume_body_returned _ _ _ _ _ _ _ _ hbody).1
        have h2 := (ih c1 config' argv1 argv' e err' h).1
        have hlen : argv1.length ≤ (a :: rest).length := by
          rcases h1 with h1 | ⟨_, h1⟩
          · rw [h1]
          · rw [h1]
            simp
        simp only [List.length_cons] at hlen ⊢
        constructor
        · omega
        · intro _ _
          omega

/-- What the loop does before it gets to the arguments `S` does not depend on
them: if `k` turns of the loop on `L ++ S` do not exit and leave the argument
pointer inside `L` (at `M ++ S`, `M` not empty), then on `L ++ S'` they end
in the same way, at `M ++ S'`. -/
theorem consume_steps_suffix (BUFSIZ : Nat) (S S' M : List String) (config' : configs)
    (err' : List Msg) (hS : S ≠ []) (hM : M ≠ []) (k : Nat) :
    ∀ (config : configs) (L : List String) (err : List Msg),
      consume_steps BUFSIZ k config (L ++ S) err = Outcome.returned (config', M ++ S) err' →
      consume_steps BUFSIZ k config (L ++ S') err = Outcome.returned (config', M ++ S') err' := by
  have hMlen : 0 < M.length := List.length_pos.mpr hM
  have hSlen : 0 < S.length := List.length_pos.mpr hS
  induction k with
  | zero =>
    intro config L err h
    simp only [consume_steps, Outcome.returned.injEq, Prod.mk.injEq] at h ⊢
    obtain ⟨⟨hc, hL⟩, he⟩ := h
    have : L = M := List.append_cancel_right hL
    rw [this]
    exact ⟨⟨hc, rfl⟩, he⟩
  | succ k ih =>
    intro config L err h
    match L, h with
    | [], h =>
      have hl := (consume_steps_length BUFSIZ (k + 1) _ _ _ _ _ _ h).1
      simp only [List.nil_append, List.length_append] at hl
      omega
    | [x], h =>
      have hl := (consume_steps_length BUFSIZ (k + 1) _ _ _ _ _ _ h).2 (Nat.succ_pos k)
        (by simp only [List.singleton_append, List.length_cons]; omega)
      simp only [List.singleton_append, List.length_cons, List.length_append] at hl
      omega
    | x :: a :: rest, h =>
      obtain ⟨v, tl, hvt⟩ : ∃ v tl, rest ++ S = v :: tl := by
        cases hrs : rest ++ S with
        | nil =>
          have := congrArg List.length hrs
          simp only [List.length_append, List.length_nil] at this
          omega
        | cons v tl => exact ⟨v, tl, rfl⟩
      have hlist : (x :: a :: rest) ++ S = x :: a :: v :: tl := by
        simp only [List.cons_append, hvt]
      rw [hlist] at h
      simp only [consume_steps] at h
      cases hbody : consume_body BUFSIZ config (a :: v :: tl) err with
      | exited c e =>
        rw [hbody] at h
        cases h
      | returned val e1 =>
        obtain ⟨c1, argv1⟩ := val
        rw [hbody] at h
        simp only at h
        have hgoal : ∀ N, consume_body BUFSIZ config (a :: (rest ++ S')) err =
              Outcome.returned (c1, N ++ S') e1 →
            consume_steps BUFSIZ k c1 (N ++ S') e1 = Outcome.returned (config', M ++ S') err' →
            consume_steps BUFSIZ (k + 1) config ((x :: a :: rest) ++ S') err =
              Outcome.returned (config', M ++ S') err' := by
          intro N hb hs
          show consume_steps BUFSIZ (k + 1) config (x :: a :: (rest ++ S')) err = _
          simp only [consume_steps, hb]
          exact hs
        rcases consume_body_tail _ _ _ _ _ _ _ _ _ hbody with ⟨ha, hall⟩ | ⟨ha, hall⟩
        · -- the loop stays on `a`
          have hform : argv1 = (a :: rest) ++ S := by
            rw [ha, List.cons_append, hvt]
          rw [hform] at h
          exact hgoal (a :: rest) (hall (rest ++ S')) (ih c1 (a :: rest) e1 h)
        · -- the loop moves on to the successor of `a`
          cases rest with
          | nil =>
            simp only [List.nil_append] at hvt
            rw [ha, ← hvt] at h
            have hl := (consume_steps_length BUFSIZ k _ _ _ _ _ _ h).1
            simp only [List.length_append] at hl
            omega
          | cons v' rest' =>
            simp only [List.cons_append, List.cons.injEq] at hvt
            obtain ⟨hv, htl⟩ := hvt
            subst hv
            have hform : argv1 = (v' :: rest') ++ S := by
              rw [ha, ← htl, List.cons_append]
            rw [hform] at h
            exact hgoal (v' :: rest') (hall (rest' ++ S')) (ih c1 (v' :: rest') e1 h)

/-- Messages written beforehand change neither the returned value nor the exit status. -/
theorem Outcome.after_value_status {α : Type} (pre : List Msg) (o : Outcome α) :
    (o.after pre).value = o.value ∧ (o.after pre).status = o.status := by
  cases o <;> exact ⟨rfl, rfl⟩

/-- The loop body only adds to `stderr`. -/
theorem consume_body_after (BUFSIZ : Nat) (config : configs) (argv : List String)
    (pre err : List Msg) :
    consume_body BUFSIZ config argv (pre ++ err) =
      (consume_body BUFSIZ config argv err).after pre := by
  have hget : ∀ opt_name, get_option BUFSIZ config argv opt_name (pre ++ err) =
      (get_option BUFSIZ config argv opt_name err).after pre := by
    intro opt_name
    unfold get_option
    by_cases hl : argv.length > 1
    · simp only [hl, if_true]
      generalize argv.tail.headD "" = v
      generalize argv.tail = t
      by_cases hwb : opt_name = "--work" ∨ opt_name = "--break"
      · by_cases hv : atoi v < 1
        · simp [hwb, hv, bad_option, MODE_FAIL, Outcome.after]
        · simp [hwb, hv, Outcome.after]
      · simp [hwb, Outcome.after]
    · simp [hl, Outcome.after]
  unfold consume_body
  simp only
  split
  · simp [Outcome.after]
  split
  · exact hget _
  split
  · exact hget _
  split
  · exact hget _
  · simp [bad_option, MODE_CONTINUE, MODE_FAIL, Outcome.after]

/-- The function `consume_args` only adds to `stderr`. -/
theorem consume_args_after (BUFSIZ : Nat) (n : Nat) :
    ∀ (config : configs) (argv : List String) (pre err : List Msg), argv.length ≤ n →
      consume_args BUFSIZ config argv (pre ++ err) =
        (consume_args BUFSIZ config argv err).after pre := by
  induction n with
  | zero =>
    intro config argv pre err hn
    have : argv = [] := List.length_eq_zero.mp (Nat.le_zero.mp hn)
    subst this
    rw [(consume_args_done BUFSIZ config _).1, (consume_args_done BUFSIZ config _).1]
    rfl
  | succ n ih =>
    intro config argv pre err hn
    match argv, hn with
    | [], _ =>
      rw [(consume_args_done BUFSIZ config _).1, (consume_args_done BUFSIZ config _).1]
      rfl
    | [x], _ =>
      rw [(consume_args_done BUFSIZ config _).2 x, (consume_args_done BUFSIZ config _).2 x]
      rfl
    | x :: a :: rest, hn =>
      rw [consume_args_cons, consume_args_cons, consume_body_after]
      cases hbody : consume_body BUFSIZ config (a :: rest) err with
      | exited c e => rfl
      | returned val e =>
        obtain ⟨c1, argv1⟩ := val
        simp only [Outcome.after]
        have h1 := (consume_body_returned _ _ _ _ _ _ _ _ hbody).1
        have hlen : argv1.length ≤ n := by
          simp only [List.length_cons] at hn
          rcases h1 with h1 | ⟨_, h1⟩
          · rw [h1]
            simp only [List.length_cons]
            omega
          · rw [h1]
            omega
        exact ih c1 argv1 pre e hlen

/-- The element the argument pointer stands on at the head of the loop is not
looked at again. -/
theorem consume_args_head (BUFSIZ : Nat) (config : configs) (x y : String) (l : List String)
    (err : List Msg) :
    consume_args BUFSIZ config (x :: l) err = consume_args BUFSIZ config (y :: l) err := by
  cases l with
  | nil => rw [(consume_args_done BUFSIZ config err).2 x, (consume_args_done BUFSIZ config err).2 y]
  | cons a rest => rw [consume_args_cons, consume_args_cons]

/-- The loop body on an option that takes a value, with a value present: it
exits, or it moves on to the value, in the same way whatever follows. -/
theorem consume_body_value_option (BUFSIZ : Nat) (config : configs) (a v : String)
    (err : List Msg) (ha : takes_value a = true) :
    (∃ code e, ∀ t, consume_body BUFSIZ config (a :: v :: t) err = Outcome.exited code e) ∨
    (∃ c1 e1, ∀ t, consume_body BUFSIZ config (a :: v :: t) err =
      Outcome.returned (c1, v :: t) e1) := by
  have hcases : a = "--work" ∨ a = "-w" ∨ a = "--break" ∨ a = "-b" ∨ a = "--log-file" ∨
      a = "-f" := by
    simpa [takes_value, or_assoc] using ha
  by_cases ht : a = "--work" ∨ a = "-w" ∨ a = "--break" ∨ a = "-b"
  · by_cases hw : a = "--work" ∨ a = "-w"
    · by_cases hv : atoi v < 1
      · left
        refine ⟨1, err ++ [Msg.bad_value (atoi v) "--work"], fun t => ?_⟩
        rw [consume_body_time BUFSIZ config a _ err ht, if_pos hw,
          (get_option_time BUFSIZ config a v t err).1, if_pos hv]
      · right
        refine ⟨{ config with work_time := atoi v }, err, fun t => ?_⟩
        rw [consume_body_time BUFSIZ config a _ err ht, if_pos hw,
          (get_option_time BUFSIZ config a v t err).1, if_neg hv]
    · by_cases hv : atoi v < 1
      · left
        refine ⟨1, err ++ [Msg.bad_value (atoi v) "--break"], fun t => ?_⟩
        rw [consume_body_time BUFSIZ config a _ err ht, if_neg hw,
          (get_option_time BUFSIZ config a v t err).2, if_pos hv]
      · right
        refine ⟨{ config with break_time := atoi v }, err, fun t => ?_⟩
        rw [consume_body_time BUFSIZ config a _ err ht, if_neg hw,
          (get_option_time BUFSIZ config a v t err).2, if_neg hv]
  · right
    have hf : a = "--log-file" ∨ a = "-f" := by
      rcases hcases with h | h | h | h | h | h
      · exact absurd (Or.inl h) ht
      · exact absurd (Or.inr (Or.inl h)) ht
      · exact absurd (Or.inr (Or.inr (Or.inl h))) ht
      · exact absurd (Or.inr (Or.inr (Or.inr h))) ht
      · exact Or.inl h
      · exact Or.inr h
    refine ⟨{ config with save_path := some (strncpy v BUFSIZ) }, err, fun t => ?_⟩
    have hbody : consume_body BUFSIZ config (a :: v :: t) err =
        get_option BUFSIZ config (a :: v :: t) "--log-file" err := by
      rcases hf with h | h <;> subst h <;> simp [consume_body]
    rw [hbody, get_option_log]

/-- The loop body on an argument that takes no value: the help flag exits,
any other argument is warned about and left, whatever follows. -/
theorem consume_body_other (BUFSIZ : Nat) (config : configs) (a : String)
    (err : List Msg) (ha : takes_value a = false) :
    (∃ code e, ∀ L, consume_body BUFSIZ config (a :: L) err = Outcome.exited code e) ∨
    (∃ e1, ∀ L, consume_body BUFSIZ config (a :: L) err =
      Outcome.returned (config, a :: L) e1) := by
  have hn : a ≠ "--work" ∧ a ≠ "-w" ∧ a ≠ "--break" ∧ a ≠ "-b" ∧ a ≠ "--log-file" ∧
      a ≠ "-f" := by
    simpa [takes_value, not_or, and_assoc] using ha
  obtain ⟨h3, h4, h5, h6, h7, h8⟩ := hn
  by_cases hh : a = "--help" ∨ a = "-h"
  · left
    exact ⟨0, err ++ [Msg.help_msg], fun L => consume_body_help BUFSIZ config a L err hh⟩
  · right
    refine ⟨err ++ [Msg.bad_option a], fun L => ?_⟩
    simp [consume_body, hh, h3, h4, h5, h6, h7, h8, bad_option, MODE_CONTINUE, MODE_FAIL]

/-- Arguments in front, ending where an option is looked for, do not tell two
argument lists apart: if `consume_args` ends with the same returned
configuration or exit status on `S1` and on `S2`, from every configuration,
then it does so on `pre ++ S1` and `pre ++ S2`. -/
theorem consume_args_prefix (BUFSIZ : Nat) (S1 S2 : List String)
    (hS : ∀ (c : configs) (x : String) (err : List Msg),
      (consume_args BUFSIZ c (x :: S1) err).value = (consume_args BUFSIZ c (x :: S2) err).value ∧
      (consume_args BUFSIZ c (x :: S1) err).status =
        (consume_args BUFSIZ c (x :: S2) err).status) (n : Nat) :
    ∀ (pre : List String), pre.length ≤ n → option_position pre = true →
      ∀ (c : configs) (x : String) (err : List Msg),
        (consume_args BUFSIZ c (x :: (pre ++ S1)) err).value =
          (consume_args BUFSIZ c (x :: (pre ++ S2)) err).value ∧
        (consume_args BUFSIZ c (x :: (pre ++ S1)) err).status =
          (consume_args BUFSIZ c (x :: (pre ++ S2)) err).status := by
  induction n with
  | zero =>
    intro pre hn _ c x err
    have : pre = [] := List.length_eq_zero.mp (Nat.le_zero.mp hn)
    subst this
    exact hS c x err
  | succ n ih =>
    intro pre hn hpos c x err
    match pre, hn, hpos with
    | [], _, _ => exact hS c x err
    | a :: rest, hn, hpos =>
      by_cases ha : takes_value a = true
      · match rest, hn, hpos with
        | [], _, hpos =>
          simp [option_position, ha] at hpos
        | v :: rest', hn, hpos =>
          have hpos' : option_position rest' = true := by
            simpa [option_position, ha] using hpos
          have hlen : rest'.length ≤ n := by
            simp only [List.length_cons] at hn
            omega
          simp only [List.cons_append]
          rw [consume_args_cons, consume_args_cons]
          rcases consume_body_value_option BUFSIZ c a v err ha with ⟨code, e, hb⟩ | ⟨c1, e1, hb⟩
          · rw [hb, hb]
            exact ⟨rfl, rfl⟩
          · rw [hb, hb]
            exact ih rest' hlen hpos' c1 v e1
      · have ha' : takes_value a = false := by simpa using ha
        have hpos' : option_position rest = true := by
          cases rest with
          | nil => rfl
          | cons v rest' => simpa [option_position, ha'] using hpos
        have hlen : rest.length ≤ n := by
          simp only [List.length_cons] at hn
          omega
        simp only [List.cons_append]
        rw [consume_args_cons, consume_args_cons]
        rcases consume_body_other BUFSIZ c a err ha' with ⟨code, e, hb⟩ | ⟨e1, hb⟩
        · rw [hb, hb]
          exact ⟨rfl, rfl⟩
        · rw [hb, hb]
          exact ih rest hlen hpos' c a e1

/-- C12: for every argument list whose last argument `opt` takes a value
(`--work`, `-w`, `--break`, `-b`, `--log-file`, `-f`), stands in option
position and has no value after it, `consume_args` returns the same
configuration, or exits with the same status, as for the list without that
last argument; the loop body only warns on it, and when the loop gets to it
`consume_args` returns, with that one warning more on `stderr` than without
it. -/
theorem missing_value_ignored (BUFSIZ : Nat) (config : configs) (err : List Msg)
    (prog opt : String) (pre : List String)
    (hopt : opt = "--work" ∨ opt = "-w" ∨ opt = "--break" ∨ opt = "-b" ∨
      opt = "--log-file" ∨ opt = "-f")
    (hpos : option_position pre = true) :
    (consume_args BUFSIZ config (prog :: (pre ++ [opt])) err).value =
      (consume_args BUFSIZ config (prog :: pre) err).value ∧
    (consume_args BUFSIZ config (prog :: (pre ++ [opt])) err).status =
      (consume_args BUFSIZ config (prog :: pre) err).status ∧
    (∀ (c : configs) (e : List Msg),
      consume_body BUFSIZ c [opt] e =
        Outcome.returned (c, [opt]) (e ++ [Msg.need_value
          (if opt = "--work" ∨ opt = "-w" then "--work"
           else if opt = "--break" ∨ opt = "-b" then "--break" else "--log-file")])) ∧
    (∀ (k : Nat) (config' : configs) (x : String) (err' : List Msg),
      consume_steps BUFSIZ k config (prog :: (pre ++ [opt])) err =
        Outcome.returned (config', [x, opt]) err' →
      consume_args BUFSIZ config (prog :: (pre ++ [opt])) err =
        Outcome.returned config' (err' ++ [Msg.need_value
          (if opt = "--work" ∨ opt = "-w" then "--work"
           else if opt = "--break" ∨ opt = "-b" then "--break" else "--log-file")]) ∧
      consume_args BUFSIZ config (prog :: pre) err = Outcome.returned config' err') := by
  have hbody : ∀ (c : configs) (e : List Msg), consume_body BUFSIZ c [opt] e =
      Outcome.returned (c, [opt]) (e ++ [Msg.need_value
        (if opt = "--work" ∨ opt = "-w" then "--work"
         else if opt = "--break" ∨ opt = "-b" then "--break" else "--log-file")]) := by
    intro c e
    rcases hopt with h | h | h | h | h | h <;> subst h <;> simp [consume_body, get_option]
  have hlast : ∀ (c : configs) (x : String) (e : List Msg),
      consume_args BUFSIZ c [x, opt] e =
        Outcome.returned c (e ++ [Msg.need_value
          (if opt = "--work" ∨ opt = "-w" then "--work"
           else if opt = "--break" ∨ opt = "-b" then "--break" else "--log-file")]) := by
    intro c x e
    rw [consume_args_cons, hbody]
    simp only
    exact (consume_args_done BUFSIZ _ _).2 opt
  have hsame := consume_args_prefix BUFSIZ [opt] []
    (fun c x e => by
      rw [hlast c x e, (consume_args_done BUFSIZ c e).2 x]
      exact ⟨rfl, rfl⟩)
    pre.length pre (le_refl _) hpos config prog err
  rw [List.append_nil] at hsame
  refine ⟨hsame.1, hsame.2, hbody, ?_⟩
  intro k config' x err' hpre
  constructor
  · rw [consume_args_steps BUFSIZ k _ _ _ _ _ _ hpre]
    exact hlast config' x err'
  · have hsuf := consume_steps_suffix BUFSIZ [opt] [] [x] config' err' (by simp) (by simp) k
      config (prog :: pre) err hpre
    simp only [List.append_nil] at hsuf
    rw [consume_args_steps BUFSIZ k _ _ _ _ _ _ hsuf]
    exact (consume_args_done BUFSIZ _ _).2 x

/-- Witness for `missing_value_ignored`: `pom_timer -b 10 -w`; after one turn
of the loop the argument pointer is on `10`, before the last argument `-w`. -/
theorem missing_value_ignored_witness :
    option_position ["-b", "10"] = true ∧
    (consume_args 8192 config_init ("pom_timer" :: (["-b", "10"] ++ ["-w"])) []).value =
      (consume_args 8192 config_init ("pom_timer" :: ["-b", "10"]) []).value ∧
    consume_args 8192 config_init ("pom_timer" :: (["-b", "10"] ++ ["-w"])) [] =
      Outcome.returned { config_init with break_time := 10 } ([] ++ [Msg.need_value
        (if "-w" = "--work" ∨ "-w" = "-w" then "--work"
         else if "-w" = "--break" ∨ "-w" = "-b" then "--break" else "--log-file")]) ∧
    consume_args 8192 config_init ("pom_timer" :: ["-b", "10"]) [] =
      Outcome.returned { config_init with break_time := 10 } [] :=
  ⟨by decide,
   (missing_value_ignored 8192 config_init [] "pom_timer" "-w" ["-b", "10"] (by decide)
      (by decide)).1,
   (missing_value_ignored 8192 config_init [] "pom_timer" "-w" ["-b", "10"] (by decide)
      (by decide)).2.2.2 1 { config_init with break_time := 10 } "10" [] (by decide)⟩

/-- C13: for every argument list and every token `u` that is none of `-h`,
`--help`, `-w`, `--work`, `-b`, `--break`, `-f`, `--log-file`, putting `u` in
an option position costs a warning and nothing else: `consume_args` returns
the same configuration, or exits with the same status, as without `u`; the
loop body never exits on `u`, and `u` as the only argument makes
`consume_args` return the configuration unchanged; when the loop gets to `u`,
it goes on behind it as it does without it, with the warning on `stderr`. -/
theorem unknown_option_ignored (BUFSIZ : Nat) (config : configs) (err : List Msg)
    (prog u : String) (pre post : List String)
    (hu : u ≠ "--help" ∧ u ≠ "-h" ∧ u ≠ "--work" ∧ u ≠ "-w" ∧ u ≠ "--break" ∧ u ≠ "-b" ∧
      u ≠ "--log-file" ∧ u ≠ "-f")
    (hpos : option_position pre = true) :
    (consume_args BUFSIZ config (prog :: (pre ++ u :: post)) err).value =
      (consume_args BUFSIZ config (prog :: (pre ++ post)) err).value ∧
    (consume_args BUFSIZ config (prog :: (pre ++ u :: post)) err).status =
      (consume_args BUFSIZ config (prog :: (pre ++ post)) err).status ∧
    (∀ (c : configs) (L : List String) (e : List Msg),
      consume_body BUFSIZ c (u :: L) e = Outcome.returned (c, u :: L) (e ++ [Msg.bad_option u])) ∧
    consume_args BUFSIZ config [prog, u] err =
      Outcome.returned config (err ++ [Msg.bad_option u]) ∧
    (∀ (k : Nat) (config' : configs) (x : String) (err' : List Msg),
      consume_steps BUFSIZ k config (prog :: (pre ++ u :: post)) err =
        Outcome.returned (config', x :: u :: post) err' →
      consume_args BUFSIZ config (prog :: (pre ++ u :: post)) err =
        consume_args BUFSIZ config' (x :: post) (err' ++ [Msg.bad_option u]) ∧
      consume_args BUFSIZ config (prog :: (pre ++ post)) err =
        consume_args BUFSIZ config' (x :: post) err') := by
  obtain ⟨h1, h2, h3, h4, h5, h6, h7, h8⟩ := hu
  have hbody : ∀ (c : configs) (L : List String) (e : List Msg),
      consume_body BUFSIZ c (u :: L) e =
        Outcome.returned (c, u :: L) (e ++ [Msg.bad_option u]) := by
    intro c L e
    simp [consume_body, h1, h2, h3, h4, h5, h6, h7, h8, bad_option, MODE_CONTINUE, MODE_FAIL]
  have hover : ∀ (c : configs) (x : String) (e : List Msg),
      consume_args BUFSIZ c (x :: u :: post) e =
        consume_args BUFSIZ c (x :: post) (e ++ [Msg.bad_option u]) := by
    intro c x e
    rw [consume_args_cons, hbody]
    simp only
    exact consume_args_head BUFSIZ c u x post _
  have hbase : ∀ (c : configs) (x : String) (e : List Msg),
      (consume_args BUFSIZ c (x :: u :: post) e).value =
        (consume_args BUFSIZ c (x :: post) e).value ∧
      (consume_args BUFSIZ c (x :: u :: post) e).status =
        (consume_args BUFSIZ c (x :: post) e).status := by
    intro c x e
    have ha1 := consume_args_after BUFSIZ _ c (x :: post) (e ++ [Msg.bad_option u]) []
      (le_refl _)
    have ha2 := consume_args_after BUFSIZ _ c (x :: post) e [] (le_refl _)
    rw [List.append_nil] at ha1 ha2
    rw [hover, ha1, ha2]
    exact ⟨by rw [(Outcome.after_value_status _ _).1, (Outcome.after_value_status _ _).1],
      by rw [(Outcome.after_value_status _ _).2, (Outcome.after_value_status _ _).2]⟩
  have hsame := consume_args_prefix BUFSIZ (u :: post) post hbase pre.length pre (le_refl _)
    hpos config prog err
  refine ⟨hsame.1, hsame.2, hbody, ?_, ?_⟩
  · rw [consume_args_cons, hbody]
    simp only
    exact (consume_args_done BUFSIZ _ _).2 u
  · intro k config' x err' hpre
    constructor
    · rw [consume_args_steps BUFSIZ k _ _ _ _ _ _ hpre]
      exact hover config' x err'
    · have hsuf := consume_steps_suffix BUFSIZ (u :: post) post [x] config' err' (by simp)
        (by simp) k config (prog :: pre) err hpre
      exact consume_args_steps BUFSIZ k _ _ _ _ _ _ hsuf

/-- Witness for `unknown_option_ignored`: `pom_timer -w 30 --verbose -b 7`
against `pom_timer -w 30 -b 7`. -/
theorem unknown_option_ignored_witness :
    option_position ["-w", "30"] = true ∧
    (consume_args 8192 config_init ("pom_timer" :: (["-w", "30"] ++ "--verbose" :: ["-b", "7"]))
        []).value =
      (consume_args 8192 config_init ("pom_timer" :: (["-w", "30"] ++ ["-b", "7"])) []).value ∧
    consume_args 8192 config_init ["pom_timer", "--verbose"] [] =
      Outcome.returned config_init ([] ++ [Msg.bad_option "--verbose"]) :=
  ⟨by decide,
   (unknown_option_ignored 8192 config_init [] "pom_timer" "--verbose" ["-w", "30"] ["-b", "7"]
      (by decide) (by decide)).1,
   (unknown_option_ignored 8192 config_init [] "pom_timer" "--verbose" ["-w", "30"] ["-b", "7"]
      (by decide) (by decide)).2.2.2.1⟩

end PomTimer
